import Mathlib

/-!
Verification of the position-lifecycle / portfolio-risk core of the
solana-snail-scalp repository, as a shallow embedding in Lean 4.

Prices, sizes and times are modelled as rationals (`ℚ`); the Pearson
correlation machinery, which takes real square roots, is modelled over `ℝ`.
Python floats are idealised as exact arithmetic.  Stateful methods become
pure functions from the old state to the result and the new state; a Python
`raise` becomes `Except.error`.

Sources embedded (paths relative to the repository root):
  * src/snail_scalp/risk_manager.py        (RiskManager)
  * src/snail_scalp/indicators.py          (TechnicalIndicators.get_exit_levels)
  * src/snail_scalp/portfolio_manager.py   (PortfolioManager)
  * src/snail_scalp/trader.py              (Trader.manage_position)
  * src/snail_scalp/correlation_tracker.py (CorrelationTracker)
  * src/forex_bot/strategy/position_sizing.py (PositionSizer)
-/

/-! ### Risk manager (risk_manager.py) -/

/-- `DailyStats` from risk_manager.py.  The calendar date is modelled as an
integer day index; `paused_until` is an absolute timestamp in seconds. -/
structure DailyStats where
  date : ℤ
  trades_today : ℕ := 0
  wins : ℕ := 0
  losses : ℕ := 0
  pnl_usd : ℚ := 0
  consecutive_losses : ℕ := 0
  max_concurrent : ℕ := 0
  paused_until : Option ℚ := none
  deriving Repr, DecidableEq

/-- Constructor parameters of `RiskManager` that the embedded methods read. -/
structure RiskConfig where
  daily_loss_limit : ℚ := 3/2
  max_consecutive_losses : ℕ := 2
  trading_start_utc : ℕ := 9
  trading_end_utc : ℕ := 11
  deriving Repr, DecidableEq

/-- `RiskManager._new_day`: fresh stats for the given calendar day. -/
def new_day (today : ℤ) : DailyStats := { date := today }

/-- `RiskManager._load_state`: the saved record (if any) is kept only when its
date is today's; otherwise the daily stats reset. -/
def load_state (saved : Option DailyStats) (today : ℤ) : DailyStats :=
  match saved with
  | none => new_day today
  | some s => if s.date ≠ today then new_day today else s

/-- `RiskManager.can_trade_today`, second half: the daily-loss and
consecutive-loss checks that run after the pause bookkeeping. -/
def circuit_checks (cfg : RiskConfig) (stats : DailyStats) (now : ℚ) :
    Bool × DailyStats :=
  if stats.pnl_usd ≤ -cfg.daily_loss_limit then
    (false, stats)
  else if cfg.max_consecutive_losses ≤ stats.consecutive_losses then
    (false, { stats with paused_until := some (now + 86400) })
  else
    (true, stats)

/-- `RiskManager.can_trade_today` as a pure function of the stats and the
current time (seconds).  An active pause refuses immediately; an expired
pause is cleared before the remaining checks run. -/
def can_trade_today (cfg : RiskConfig) (stats : DailyStats) (now : ℚ) :
    Bool × DailyStats :=
  match stats.paused_until with
  | some p =>
      if now < p then (false, stats)
      else circuit_checks cfg { stats with paused_until := none } now
  | none => circuit_checks cfg stats now

/-- `RiskManager.is_trading_window` as a function of the UTC hour. -/
def is_trading_window (cfg : RiskConfig) (hour : ℕ) : Bool :=
  cfg.trading_start_utc ≤ hour ∧ hour < cfg.trading_end_utc

/-- `RiskManager.check_position_size`: allocation is `"primary"` or `"dca"`
(modelled as a Bool `is_dca`); both branches return
`min max_position (available_capital * 0.15)`. -/
def check_position_size (available_capital : ℚ) (_is_dca : Bool)
    (max_position : ℚ) : ℚ :=
  min max_position (available_capital * (15/100))

/-- `RiskManager.record_trade`: strictly positive PnL counts as a win and
resets the consecutive-loss streak; zero or negative PnL counts as a loss
and extends the streak. -/
def record_trade (stats : DailyStats) (pnl_usd : ℚ) : DailyStats :=
  let s := { stats with
    trades_today := stats.trades_today + 1
    pnl_usd := stats.pnl_usd + pnl_usd }
  if 0 < pnl_usd then
    { s with wins := s.wins + 1, consecutive_losses := 0 }
  else
    { s with losses := s.losses + 1,
             consecutive_losses := s.consecutive_losses + 1 }

/-! ### Exit levels (indicators.py, `get_exit_levels`) -/

/-- Result record of `TechnicalIndicators.calculate_bb`. -/
structure BollingerBands where
  lower : ℚ
  middle : ℚ
  upper : ℚ
  width_percent : ℚ
  deriving Repr, DecidableEq

/-- Result record of `TechnicalIndicators.get_exit_levels`. -/
structure ExitLevels where
  tp1 : ℚ
  tp2 : ℚ
  stop : ℚ
  deriving Repr, DecidableEq

/-- `TechnicalIndicators.get_exit_levels`.  The indicator state is abstracted
into the two values the method reads from it: the current ATR
(`calculate_atr()`, `0` when there is not enough history) and the current
Bollinger bands (`calculate_bb()`, `none` when not ready). -/
def get_exit_levels (atr : ℚ) (bb : Option BollingerBands) (entry_price : ℚ)
    (use_atr : Bool) (atr_multiplier max_stop_pct : ℚ) : ExitLevels :=
  let stop :=
    if use_atr then
      if 0 < atr then
        max (entry_price - atr * atr_multiplier)
            (entry_price * (1 - max_stop_pct / 100))
      else entry_price * (985/1000)
    else entry_price * (985/1000)
  match bb with
  | none => { tp1 := entry_price * (1025/1000), tp2 := entry_price * (104/100), stop := stop }
  | some b => { tp1 := b.middle, tp2 := b.upper, stop := stop }

/-! ### Forex position sizer (position_sizing.py) -/

/-- Constructor parameters of `PositionSizer`. -/
structure PositionSizer where
  account_balance : ℚ
  risk_per_trade_pct : ℚ := 2
  leverage : ℚ := 30
  deriving Repr, DecidableEq

/-- Result record `PositionSize`. -/
structure PositionSize where
  lots : ℚ
  micro_lots : ℚ
  units : ℤ
  stop_pips : ℚ
  risk_amount : ℚ
  pip_value : ℚ
  margin_required : ℚ
  deriving Repr, DecidableEq

/-- Python's `round(x, 2)` (banker's rounding, ties to even). -/
def round2 (x : ℚ) : ℚ :=
  let y := x * 100
  let f : ℤ := ⌊y⌋
  let r := y - f
  (if r < 1/2 then f else if 1/2 < r then f + 1 else if 2 ∣ f then f else f + 1 : ℤ) / 100

/-- Python's `int(x)`: truncation toward zero. -/
def int_trunc (x : ℚ) : ℤ := if x < 0 then ⌈x⌉ else ⌊x⌋

/-- `PositionSizer.calculate`.  The Python method raises `ValueError` when the
stop distance is zero; the raise is modelled as `Except.error`. -/
def PositionSizer.calculate (sz : PositionSizer)
    (entry_price stop_price : ℚ)
    (pip_value_per_micro_lot : ℚ := 74/1000) (pip_size : ℚ := 1/10000) :
    Except String PositionSize :=
  let stop_distance := |entry_price - stop_price|
  let stop_pips := stop_distance / pip_size
  if stop_pips = 0 then
    Except.error "Stop price cannot equal entry price"
  else
    let risk_amount := sz.account_balance * (sz.risk_per_trade_pct / 100)
    let micro_lots := risk_amount / (stop_pips * pip_value_per_micro_lot)
    let lots := micro_lots / 100
    let lots := round2 lots
    let micro_lots := round2 (lots * 100)
    let units := int_trunc (lots * 100000)
    let contract_value := lots * 100000 * entry_price
    let margin_required := contract_value / sz.leverage
    Except.ok { lots := lots, micro_lots := micro_lots, units := units,
                stop_pips := stop_pips, risk_amount := risk_amount,
                pip_value := pip_value_per_micro_lot,
                margin_required := margin_required }

/-! ### Portfolio manager (portfolio_manager.py) -/

/-- `CloseReason` from trader.py. -/
inductive CloseReason
  | tp1
  | tp2
  | stop_loss
  | manual
  deriving Repr, DecidableEq

/-- `RiskLevel` from token_screener.py (only its identity matters here). -/
inductive RiskLevel
  | minimal
  | low
  | moderate
  | high
  | extreme
  deriving Repr, DecidableEq

/-- `PositionStatus` from portfolio_manager.py.  Python names:
PENDING, OPEN, PARTIAL, CLOSED (PARTIAL is rendered `scaledOut`). -/
inductive PositionStatus
  | pending
  | opened
  | scaledOut
  | closed
  deriving Repr, DecidableEq

/-- `TokenPosition` from portfolio_manager.py. -/
structure TokenPosition where
  symbol : String
  address : String
  entry_price : ℚ := 0
  size_usd : ℚ := 0
  entry_time : Option ℚ := none
  status : PositionStatus := .pending
  dca_done : Bool := false
  tp1_hit : Bool := false
  realized_pnl : ℚ := 0
  unrealized_pnl : ℚ := 0
  exit_price : Option ℚ := none
  exit_time : Option ℚ := none
  close_reason : Option CloseReason := none
  hype_score_at_entry : ℚ := 0
  risk_level_at_entry : RiskLevel := .moderate
  deriving Repr, DecidableEq

/-- `PortfolioState` from portfolio_manager.py.  The Python dict of positions
is modelled as an association list with unique keys. -/
structure PortfolioState where
  initial_capital : ℚ := 20
  available_capital : ℚ := 20
  total_allocated : ℚ := 0
  total_realized_pnl : ℚ := 0
  total_unrealized_pnl : ℚ := 0
  positions : List (String × TokenPosition) := []
  closed_positions : List TokenPosition := []
  max_concurrent_positions : ℕ := 3
  max_allocation_per_token : ℚ := 6
  deriving Repr, DecidableEq

/-- Dict read `positions.get(symbol)`. -/
def lookup_position : List (String × TokenPosition) → String → Option TokenPosition
  | [], _ => none
  | (k, v) :: rest, symbol =>
      if k = symbol then some v else lookup_position rest symbol

/-- Dict write `positions[symbol] = p` for a key already present. -/
def set_position : List (String × TokenPosition) → String → TokenPosition →
    List (String × TokenPosition)
  | [], _, _ => []
  | (k, v) :: rest, symbol, p =>
      if k = symbol then (k, p) :: rest else (k, v) :: set_position rest symbol p

/-- Dict write `positions[symbol] = p` (update an existing key in place,
append a new key). -/
def dict_insert (ps : List (String × TokenPosition)) (symbol : String)
    (p : TokenPosition) : List (String × TokenPosition) :=
  if (lookup_position ps symbol).isSome then set_position ps symbol p
  else ps ++ [(symbol, p)]

/-- Dict delete `del positions[symbol]`. -/
def del_position : List (String × TokenPosition) → String →
    List (String × TokenPosition)
  | [], _ => []
  | (k, v) :: rest, symbol =>
      if k = symbol then rest else (k, v) :: del_position rest symbol

/-- The Python test `status in [PositionStatus.OPEN, PositionStatus.PARTIAL]`. -/
def is_open_status (st : PositionStatus) : Bool :=
  st = PositionStatus.opened ∨ st = PositionStatus.scaledOut

/-- `PortfolioState.open_position_count`. -/
def open_position_count (s : PortfolioState) : ℕ :=
  s.positions.countP fun kv => is_open_status kv.2.status

/-- `PortfolioState.can_open_position`. -/
def can_open_position (s : PortfolioState) (size_usd : ℚ) : Bool :=
  if s.max_concurrent_positions ≤ open_position_count s then false
  else if s.available_capital < size_usd then false
  else if s.max_allocation_per_token < size_usd then false
  else true

/-- `PortfolioManager.has_open_position`. -/
def has_open_position (s : PortfolioState) (symbol : String) : Bool :=
  match lookup_position s.positions symbol with
  | some pos => is_open_status pos.status
  | none => false

/-- `PortfolioManager.open_position` (persistence side effects dropped;
`datetime.now()` passed in as `now`). -/
def open_position (s : PortfolioState) (symbol address : String)
    (entry_price size_usd hype_score : ℚ) (risk_level : RiskLevel)
    (now : ℚ) : Bool × PortfolioState :=
  if ¬ can_open_position s size_usd then (false, s)
  else if has_open_position s symbol then (false, s)
  else
    let position : TokenPosition :=
      { symbol := symbol, address := address, entry_price := entry_price,
        size_usd := size_usd, entry_time := some now,
        status := PositionStatus.opened, hype_score_at_entry := hype_score,
        risk_level_at_entry := risk_level }
    (true, { s with
      positions := dict_insert s.positions symbol position
      available_capital := s.available_capital - size_usd
      total_allocated := s.total_allocated + size_usd })

/-- `PortfolioManager.execute_dca`. -/
def execute_dca (s : PortfolioState) (symbol : String)
    (dca_price dca_size : ℚ) : Bool × PortfolioState :=
  match lookup_position s.positions symbol with
  | none => (false, s)
  | some pos =>
      if pos.status ≠ PositionStatus.opened then (false, s)
      else if pos.dca_done then (false, s)
      else if s.available_capital < dca_size then (false, s)
      else
        let old_size := pos.size_usd
        let pos' := { pos with
          size_usd := old_size + dca_size
          entry_price := (pos.entry_price * old_size + dca_price * dca_size) /
            (old_size + dca_size)
          dca_done := true }
        (true, { s with
          positions := set_position s.positions symbol pos'
          available_capital := s.available_capital - dca_size
          total_allocated := s.total_allocated + dca_size })

/-- `PortfolioManager.partial_close` (the TP1 scale-out; renamed because the
first word of the Python name is reserved in this development). -/
def close_portion (s : PortfolioState) (symbol : String)
    (exit_price : ℚ) (portion : ℚ := 1/2) : (Bool × ℚ) × PortfolioState :=
  match lookup_position s.positions symbol with
  | none => ((false, 0), s)
  | some pos =>
      if pos.status ≠ PositionStatus.opened then ((false, 0), s)
      else
        let close_size := pos.size_usd * portion
        let price_change := (exit_price - pos.entry_price) / pos.entry_price
        let pnl := close_size * price_change
        let pos' := { pos with
          realized_pnl := pos.realized_pnl + pnl
          size_usd := pos.size_usd - close_size
          tp1_hit := true
          status := PositionStatus.scaledOut }
        ((true, pnl), { s with
          positions := set_position s.positions symbol pos'
          available_capital := s.available_capital + close_size + pnl
          total_allocated := s.total_allocated - close_size
          total_realized_pnl := s.total_realized_pnl + pnl })

/-- `PortfolioManager.close_position`. -/
def close_position (s : PortfolioState) (symbol : String) (exit_price : ℚ)
    (reason : CloseReason) (now : ℚ) : (Bool × ℚ) × PortfolioState :=
  match lookup_position s.positions symbol with
  | none => ((false, 0), s)
  | some pos =>
      if ¬ is_open_status pos.status then ((false, 0), s)
      else
        let remaining_size := pos.size_usd
        let price_change := (exit_price - pos.entry_price) / pos.entry_price
        let remaining_pnl := remaining_size * price_change
        let total_pnl := pos.realized_pnl + remaining_pnl
        let pos' := { pos with
          exit_price := some exit_price
          exit_time := some now
          close_reason := some reason
          status := PositionStatus.closed
          realized_pnl := total_pnl
          unrealized_pnl := 0 }
        ((true, total_pnl), { s with
          available_capital := s.available_capital + remaining_size + remaining_pnl
          total_allocated := s.total_allocated - remaining_size
          total_realized_pnl := s.total_realized_pnl + remaining_pnl
          closed_positions := s.closed_positions ++ [pos']
          positions := del_position s.positions symbol })

/-- A position's contribution to the open-capital sum: its size when OPEN or
PARTIAL, `0` otherwise. -/
def open_size (p : TokenPosition) : ℚ :=
  if is_open_status p.status then p.size_usd else 0

/-- Sum of open position sizes over the positions dict. -/
def open_sizes_sum (ps : List (String × TokenPosition)) : ℚ :=
  (ps.map fun kv => open_size kv.2).sum

/-- Invariant I2 of the spec:
`available_capital + Σ open sizes = initial_capital + Σ realized PnL`. -/
def capital_invariant (s : PortfolioState) : Prop :=
  s.available_capital + open_sizes_sum s.positions =
    s.initial_capital + s.total_realized_pnl

/-! ### Trader (trader.py, `Trader.manage_position`) -/

/-- `TradeStatus` from trader.py.  Python names: OPEN, PARTIAL, CLOSED
(PARTIAL is rendered `scaledOut`). -/
inductive TradeStatus
  | opened
  | scaledOut
  | closed
  deriving Repr, DecidableEq

/-- `Trade` from trader.py: the active position of a `Trader`.  The
`__post_init__` defaults (`highest_price := entry_price`,
`final_position_size := size_usd`, `scale_levels_hit := []`) are applied at
construction sites. -/
structure Trade where
  entry_price : ℚ
  size_usd : ℚ
  entry_time : ℚ
  dca_done : Bool := false
  tp1_hit : Bool := false
  status : TradeStatus := TradeStatus.opened
  exit_price : Option ℚ := none
  exit_time : Option ℚ := none
  close_reason : Option CloseReason := none
  pnl_usd : ℚ := 0
  pnl_pct : ℚ := 0
  highest_price : ℚ := 0
  last_trailing_update : ℚ := 0
  breakeven_stop_price : ℚ := 0
  scale_levels_hit : List Bool := []
  final_position_size : ℚ := 0
  deriving Repr, DecidableEq

/-- The strategy-config keys `Trader.manage_position` reads, with the
defaults of the corresponding `config.get(...)` calls. -/
structure TradeConfig where
  use_time_exit : Bool := true
  max_hold_time_minutes : ℚ := 120
  dca_trigger_percent : ℚ := 1
  dca_allocation_ratio : ℚ := 1/2
  use_trailing_stop : Bool := true
  trailing_stop_percent : ℚ := 1
  trailing_update_interval : ℚ := 300
  use_atr_stop : Bool := true
  stop_loss_atr_multiplier : ℚ := 3/2
  stop_loss_max_percent : ℚ := 3
  use_breakeven_stop : Bool := true
  breakeven_buffer_percent : ℚ := 1/10
  use_partial_scaling : Bool := true
  partial_scale_levels : List (ℚ × ℚ) := [(1/4, 3/2), (1/4, 5/2), (1/4, 4)]
  use_atr_targets : Bool := true
  tp1_atr_multiplier : ℚ := 1
  tp2_atr_multiplier : ℚ := 2
  tp_min_percent : ℚ := 2
  tp_max_percent : ℚ := 8
  tp1_percent : ℚ := 5/2
  tp2_percent : ℚ := 4
  deriving Repr, DecidableEq

/-- `Trader._partial_close`: close `portion` of the position, realising
proportional PnL (renamed `trade_close_portion`: the first word of the
Python name is reserved in this development). -/
def trade_close_portion (pos : Trade) (price portion : ℚ) : Trade :=
  let size := pos.size_usd * portion
  let pnl := (price - pos.entry_price) / pos.entry_price * size
  { pos with
    size_usd := pos.size_usd - size
    pnl_usd := pos.pnl_usd + pnl
    status := TradeStatus.scaledOut }

/-- `Trader._close_position` (the trade-history/risk-recording side effects
are outside the modelled state). -/
def trade_close_full (pos : Trade) (price now : ℚ) (reason : CloseReason) :
    Trade :=
  let remaining_pnl := (price - pos.entry_price) / pos.entry_price * pos.size_usd
  { pos with
    exit_price := some price
    exit_time := some now
    close_reason := some reason
    pnl_usd := pos.pnl_usd + remaining_pnl
    pnl_pct := (price - pos.entry_price) / pos.entry_price * 100
    status := TradeStatus.closed }

/-- The DCA block of `manage_position` (trader.py lines 257-279); `entry`
is the method-local entry price captured at the top of the call. -/
def apply_dca (cfg : TradeConfig) (pos : Trade) (entry price : ℚ) : Trade :=
  let pnl_pct := (price - entry) / entry * 100
  if pnl_pct ≤ -cfg.dca_trigger_percent ∧ pos.dca_done = false then
    let dca_size := pos.size_usd * cfg.dca_allocation_ratio
    let available := check_position_size (pos.size_usd * 3) true dca_size
    if dca_size ≤ available ∧ 0 < dca_size then
      let old_size := pos.size_usd
      { pos with
        size_usd := old_size + dca_size
        entry_price := (entry * old_size + price * dca_size) / (old_size + dca_size)
        dca_done := true }
    else pos
  else pos

/-- Highest-price tracking (trader.py lines 286-287). -/
def update_highest (pos : Trade) (price : ℚ) : Trade :=
  if pos.highest_price < price then { pos with highest_price := price } else pos

/-- Breakeven-stop arming after TP1 (trader.py lines 301-308): only when
`tp1_hit` is set, the feature is on, no breakeven is armed yet, and the
current base stop is below the breakeven price. -/
def arm_breakeven (cfg : TradeConfig) (pos : Trade) (entry stop_price : ℚ) :
    Trade :=
  if pos.tp1_hit = true ∧ cfg.use_breakeven_stop = true ∧
      pos.breakeven_stop_price = 0 then
    let breakeven_price := entry * (1 + cfg.breakeven_buffer_percent / 100)
    if stop_price < breakeven_price then
      { pos with breakeven_stop_price := breakeven_price }
    else pos
  else pos

/-- Raising the stop to an armed breakeven floor (trader.py lines 310-312). -/
def stop_with_breakeven (pos : Trade) (stop_price : ℚ) : ℚ :=
  if 0 < pos.breakeven_stop_price then max stop_price pos.breakeven_stop_price
  else stop_price

/-- Trailing-stop re-evaluation (trader.py lines 314-325): at most once per
`trailing_update_interval`, never below the breakeven floor (or the entry
when no floor is armed); the raised stop is the call-local `stop_price`,
not persisted on the position. -/
def apply_trailing (cfg : TradeConfig) (pos : Trade) (entry stop_price now : ℚ) :
    Trade × ℚ :=
  if pos.tp1_hit = true ∧ cfg.use_trailing_stop = true then
    if cfg.trailing_update_interval ≤ now - pos.last_trailing_update then
      let trailing_stop := pos.highest_price * (1 - cfg.trailing_stop_percent / 100)
      let min_stop := if 0 < pos.breakeven_stop_price then pos.breakeven_stop_price
        else entry
      let effective_trailing := max trailing_stop min_stop
      let stop' := if stop_price < effective_trailing then effective_trailing
        else stop_price
      ({ pos with last_trailing_update := now }, stop')
    else (pos, stop_price)
  else (pos, stop_price)

/-- The scan of `partial_scale_levels` (trader.py lines 344-347): the first
index `i` with level `i` unhit and its target `entry * (1 + pct/100)`
reached; an unhit level whose target is not reached is passed over without
ending the scan. -/
def find_scale_index (hit : List Bool) (entry price : ℚ) :
    ℕ → List (ℚ × ℚ) → Option ℕ
  | _, [] => none
  | i, (_, profit_pct) :: rest =>
      if i < hit.length ∧ hit.getD i false = false ∧
          entry * (1 + profit_pct / 100) ≤ price then some i
      else find_scale_index hit entry price (i + 1) rest

/-- The partial-scaling block (trader.py lines 339-361): at most one level
fires per observation (`break`); hitting the final level sets `tp1_hit`. -/
def apply_scaling (cfg : TradeConfig) (pos : Trade) (entry price : ℚ) :
    Trade × Option ℕ :=
  match find_scale_index pos.scale_levels_hit entry price 0
      cfg.partial_scale_levels with
  | none => (pos, none)
  | some i =>
      let portion := (cfg.partial_scale_levels.getD i (0, 0)).1
      let close_size := pos.final_position_size * portion
      let raw_portion := if 0 < pos.size_usd then close_size / pos.size_usd else 0
      let actual_portion := min raw_portion 1
      let pos := trade_close_portion pos price actual_portion
      let pos := { pos with scale_levels_hit := pos.scale_levels_hit.set i true }
      let pos := if i = cfg.partial_scale_levels.length - 1 then
          { pos with tp1_hit := true }
        else pos
      (pos, some i)

/-- The legacy TP1/TP2 block (trader.py lines 363-390), used when partial
scaling is disabled. -/
def apply_legacy_targets (cfg : TradeConfig) (atr : ℚ) (pos : Trade)
    (entry price now : ℚ) : Trade :=
  let tp :=
    if cfg.use_atr_targets = true ∧ 0 < atr then
      let tp1_atr_pct := max (min (atr / entry * cfg.tp1_atr_multiplier * 100)
        cfg.tp_max_percent) cfg.tp_min_percent
      let tp2_atr_pct := max (min (atr / entry * cfg.tp2_atr_multiplier * 100)
        cfg.tp_max_percent) cfg.tp_min_percent
      (entry * (1 + tp1_atr_pct / 100), entry * (1 + tp2_atr_pct / 100))
    else
      (entry * (1 + cfg.tp1_percent / 100), entry * (1 + cfg.tp2_percent / 100))
  let pos :=
    if tp.1 ≤ price ∧ pos.tp1_hit = false then
      { (trade_close_portion pos price (1/2)) with tp1_hit := true }
    else pos
  if tp.2 ≤ price ∧ pos.tp1_hit = true then
    trade_close_full pos price now CloseReason.tp2
  else pos

/-- What one `manage_position` call yields: the updated position (status
CLOSED when it closed), the stop price it compared the observation against
(when the call reached the stop check), the scale level fired (if any) and
the close reason (if it closed). -/
structure StepOut where
  pos : Trade
  stop_used : Option ℚ
  fired : Option ℕ
  closed : Option CloseReason
  deriving Repr, DecidableEq

/-- Lines 257-312 of `manage_position`: DCA, highest-price update, base
stop from `get_exit_levels` (on the entry captured at call start),
breakeven arming and breakeven floor.  Yields the position and the stop
after the breakeven floor. -/
def pre_trailing (cfg : TradeConfig) (atr : ℚ) (bb : Option BollingerBands)
    (pos : Trade) (entry price : ℚ) : Trade × ℚ :=
  let pos := apply_dca cfg pos entry price
  let pos := update_highest pos price
  let stop0 := (get_exit_levels atr bb entry cfg.use_atr_stop
    cfg.stop_loss_atr_multiplier cfg.stop_loss_max_percent).stop
  let pos := arm_breakeven cfg pos entry stop0
  (pos, stop_with_breakeven pos stop0)

/-- Lines 257-325 of `manage_position`: `pre_trailing` followed by the
trailing re-evaluation; yields the position and the stop price to compare
the observation against. -/
def stop_evaluation (cfg : TradeConfig) (atr : ℚ) (bb : Option BollingerBands)
    (pos : Trade) (entry price now : ℚ) : Trade × ℚ :=
  let pt := pre_trailing cfg atr bb pos entry price
  apply_trailing cfg pt.1 entry pt.2 now

/-- `Trader.manage_position` for an active position, as one pure step.
The indicator state is abstracted into the ATR and Bollinger values the
method reads; `price` is `current_price`, `now` is `time.time()`.  The
phases run in the Python order: time exit, then `stop_evaluation` (DCA,
highest-price update, base stop, breakeven arming and floor, trailing
re-evaluation), the stop-loss check, then partial scaling (or the legacy
TP1/TP2 logic). -/
def manage_position (cfg : TradeConfig) (atr : ℚ) (bb : Option BollingerBands)
    (pos : Trade) (price now : ℚ) : StepOut :=
  let entry := pos.entry_price
  if cfg.use_time_exit = true ∧
      cfg.max_hold_time_minutes ≤ (now - pos.entry_time) / 60 then
    { pos := trade_close_full pos price now CloseReason.manual,
      stop_used := none, fired := none, closed := some CloseReason.manual }
  else
    let tr := stop_evaluation cfg atr bb pos entry price now
    let pos := tr.1
    let stop2 := tr.2
    if price ≤ stop2 then
      { pos := trade_close_full pos price now CloseReason.stop_loss,
        stop_used := some stop2, fired := none,
        closed := some CloseReason.stop_loss }
    else if cfg.use_partial_scaling = true then
      let sc := apply_scaling cfg pos entry price
      { pos := sc.1, stop_used := some stop2, fired := sc.2, closed := none }
    else
      let pos := apply_legacy_targets cfg atr pos entry price now
      { pos := pos, stop_used := some stop2, fired := none,
        closed := if pos.status = TradeStatus.closed then
          some CloseReason.tp2 else none }

/-- The value a trailing re-evaluation computes when a breakeven floor is
armed: `max (highest_price · (1 − trailing_pct/100)) breakeven_floor`
(trader.py lines 318-321). -/
def trailing_candidate (cfg : TradeConfig) (pos : Trade) : ℚ :=
  max (pos.highest_price * (1 - cfg.trailing_stop_percent / 100))
    pos.breakeven_stop_price

/-- Downward closure of the scale-level hit flags: every level below a hit
level is hit. -/
def flags_downward_closed (hit : List Bool) : Prop :=
  ∀ i j, i ≤ j → hit.getD j false = true → hit.getD i false = true

/-- Number of scale levels marked hit. -/
def count_hits (hit : List Bool) : ℕ := hit.count true

/-- Fixture: a position whose FIRST scale level has just been hit (25%
closed at +1.5%), exactly as trader.py leaves it: level-0 flag set,
`tp1_hit` still false, no breakeven armed. -/
def posAfterFirstScale : Trade :=
  { entry_price := 100, size_usd := 9/4, entry_time := 0,
    status := TradeStatus.scaledOut, pnl_usd := 9/800,
    highest_price := 1015/10, scale_levels_hit := [true, false, false],
    final_position_size := 3 }

/-- Fixture: a position past the final scale level (`tp1_hit` set) with the
breakeven floor armed at 100.1 and a peak of 110. -/
def posTrailArmed : Trade :=
  { entry_price := 100, size_usd := 3/4, entry_time := 0, tp1_hit := true,
    status := TradeStatus.scaledOut, highest_price := 110,
    last_trailing_update := 0, breakeven_stop_price := 1001/10,
    scale_levels_hit := [true, true, true], final_position_size := 3 }

/-- Fixture: a position past the final scale level (`tp1_hit` set) with no
breakeven armed yet. -/
def posFinalScale : Trade :=
  { entry_price := 100, size_usd := 3/4, entry_time := 0, tp1_hit := true,
    status := TradeStatus.scaledOut, highest_price := 1041/10,
    last_trailing_update := 0, breakeven_stop_price := 0,
    scale_levels_hit := [true, true, true], final_position_size := 3 }

/-- Concrete fixture: an OPEN position of size 1 at entry 1. -/
def pmPosW : TokenPosition :=
  { symbol := "T", address := "a", entry_price := 1, size_usd := 1,
    status := PositionStatus.opened }

/-- Concrete fixture: a portfolio holding `pmPosW` with 10 available. -/
def pmStateW : PortfolioState :=
  { available_capital := 10, positions := [("T", pmPosW)] }

/-! ### Correlation tracker (correlation_tracker.py)

Pearson correlation takes a real square root (`np.std`), so this module is
modelled over `ℝ` and its definitions are `noncomputable`. -/

/-- `np.mean` of a list (`0` for the empty list; the guarded call sites
never reach that case). -/
noncomputable def list_mean (l : List ℝ) : ℝ := l.sum / l.length

/-- `np.std`: the population standard deviation,
`sqrt (mean ((x − mean)²))`. -/
noncomputable def list_std (l : List ℝ) : ℝ :=
  Real.sqrt (list_mean (l.map fun x => (x - list_mean l) ^ 2))

/-- `TokenPriceHistory.get_returns`: consecutive percentage changes. -/
noncomputable def get_returns (prices : List ℝ) : List ℝ :=
  if prices.length < 2 then []
  else (prices.zip prices.tail).map fun pq => (pq.2 - pq.1) / pq.1

/-- Python's `l[-n:]` slice (the whole list when `n = 0`). -/
def py_last_slice {α : Type} (n : ℕ) (l : List α) : List α :=
  if n = 0 then l else l.drop (l.length - n)

/-- `CorrelationTracker` state: per-token price histories (an association
list standing for the Python dict) plus the constructor parameters. -/
structure CorrelationTracker where
  token_histories : List (String × List ℝ)
  threshold : ℝ
  lookback : ℕ

/-- Dict read `token_histories.get(symbol)` (membership test plus access). -/
def lookup_history : List (String × List ℝ) → String → Option (List ℝ)
  | [], _ => none
  | (k, v) :: rest, symbol =>
      if k = symbol then some v else lookup_history rest symbol

/-- `CorrelationTracker.calculate_correlation`: Pearson correlation of the
last `lookback` returns of the two tokens; `0` when either token is
unknown, there are fewer than 5 returns, or either standard deviation is
zero. -/
noncomputable def calculate_correlation (t : CorrelationTracker)
    (symbol1 symbol2 : String) : ℝ :=
  match lookup_history t.token_histories symbol1,
      lookup_history t.token_histories symbol2 with
  | some hist1, some hist2 =>
      let returns1 := py_last_slice t.lookback (get_returns hist1)
      let returns2 := py_last_slice t.lookback (get_returns hist2)
      if returns1.length < 5 ∨ returns2.length < 5 then 0
      else
        let min_len := min returns1.length returns2.length
        let r1 := py_last_slice min_len returns1
        let r2 := py_last_slice min_len returns2
        if r1.length < 2 then 0
        else
          let mean1 := list_mean r1
          let mean2 := list_mean r2
          let std1 := list_std r1
          let std2 := list_std r2
          if std1 = 0 ∨ std2 = 0 then 0
          else
            let covariance := list_mean ((r1.zip r2).map fun p =>
              (p.1 - mean1) * (p.2 - mean2))
            covariance / (std1 * std2)
  | _, _ => 0

/-- One insertion step of Python's stable sort by `abs(corr)` descending. -/
noncomputable def insert_by_abs_desc (x : String × ℝ) :
    List (String × ℝ) → List (String × ℝ)
  | [] => [x]
  | y :: ys => if |y.2| < |x.2| then x :: y :: ys else y :: insert_by_abs_desc x ys

/-- `correlated.sort(key=lambda x: abs(x[1]), reverse=True)` (stable). -/
noncomputable def sort_by_abs_desc : List (String × ℝ) → List (String × ℝ)
  | [] => []
  | x :: xs => insert_by_abs_desc x (sort_by_abs_desc xs)

/-- `CorrelationTracker.get_correlated_tokens`: the active symbols (other
than the candidate) whose correlation magnitude is at least the threshold,
sorted by correlation strength. -/
noncomputable def get_correlated_tokens (t : CorrelationTracker)
    (symbol : String) (active_symbols : List String) : List (String × ℝ) :=
  let correlated := active_symbols.foldr (fun other acc =>
    if other = symbol then acc
    else
      let corr := calculate_correlation t symbol other
      if t.threshold ≤ |corr| then (other, corr) :: acc else acc) []
  sort_by_abs_desc correlated

/-- `CorrelationTracker.check_correlation_risk`: the position is refused
only when at least `max_correlated` active symbols are correlated with the
candidate. -/
noncomputable def check_correlation_risk (t : CorrelationTracker)
    (symbol : String) (active_symbols : List String)
    (max_correlated : ℕ) : Bool × List String :=
  let correlated := get_correlated_tokens t symbol active_symbols
  let existing_correlated := correlated.map Prod.fst
  if max_correlated ≤ existing_correlated.length then
    (false, existing_correlated.take max_correlated)
  else
    (true, existing_correlated)

/-- The correlation gate of `Trader.check_entry` (trader.py lines 158-168):
the entry proceeds past the correlation check iff this is `true`; when it
is `false` the entry is rejected with a correlation reason. -/
noncomputable def check_entry_correlation_gate (use_correlation_check : Bool)
    (max_correlated : ℕ) (t : CorrelationTracker) (symbol : String)
    (active_symbols : List String) : Bool :=
  if use_correlation_check then
    (check_correlation_risk t symbol active_symbols max_correlated).1
  else true

/-- Fixture: a price history alternating 1, 2 (five returns, nonzero
variance). -/
noncomputable def corrPricesW : List ℝ := [1, 2, 1, 2, 1, 2]

/-- Fixture: two tokens with identical price histories (so correlation 1)
under threshold 0.85 and the default lookback 20. -/
noncomputable def corrTrackerW : CorrelationTracker :=
  { token_histories := [("A", corrPricesW), ("B", corrPricesW)],
    threshold := 0.85, lookback := 20 }

/-! ### Theorems -/

/-- C6: for every computed stop with ATR enabled, a positive ATR gives
`stop = max (entry − ATR·multiplier) (entry·(1 − max_stop_pct/100))`, so the
ATR stop never exceeds the fixed percentage cap; but when ATR is
unavailable (zero) the code falls back to the hard-coded stop
`entry · 0.985`, not to `entry · (1 − max_stop_pct/100)`. -/
theorem exit_stop_atr_policy (atr : ℚ) (bb : Option BollingerBands)
    (entry_price atr_multiplier max_stop_pct : ℚ) :
    (0 < atr →
      (get_exit_levels atr bb entry_price true atr_multiplier max_stop_pct).stop =
        max (entry_price - atr * atr_multiplier)
            (entry_price * (1 - max_stop_pct / 100))) ∧
    (atr ≤ 0 →
      (get_exit_levels atr bb entry_price true atr_multiplier max_stop_pct).stop =
        entry_price * (985/1000)) := by
  constructor
  · intro h
    cases bb <;> simp [get_exit_levels, h]
  · intro h
    cases bb <;> simp [get_exit_levels, not_lt.mpr h]

/-- Witness for `exit_stop_atr_policy` at ATR `2`, entry `100`,
multiplier `3/2`, cap `3`%. -/
theorem exit_stop_atr_policy_witness :
    (0:ℚ) < 2 ∧
    (get_exit_levels 2 none 100 true (3/2) 3).stop =
      max ((100:ℚ) - 2 * (3/2)) (100 * (1 - 3/100)) :=
  ⟨by norm_num, (exit_stop_atr_policy 2 none 100 (3/2) 3).1 (by norm_num)⟩

/-- C6 counterexample: with ATR unavailable and `max_stop_pct = 3`, the stop
is `98.5 = entry · 0.985`, which differs from the claimed fallback
`entry · (1 − max_stop_pct/100) = 97`. -/
theorem exit_stop_fallback_counterexample :
    (get_exit_levels 0 none 100 true (3/2) 3).stop = 985/10 ∧
    (get_exit_levels 0 none 100 true (3/2) 3).stop ≠ 100 * (1 - 3/100) := by
  constructor <;> norm_num [get_exit_levels]

/-- C8 amended: `can_trade_today` returns false whenever the cumulative daily
PnL is at or below `−daily_loss_limit` (including exactly), and returns false
whenever the consecutive-loss count has reached the configured maximum; the
24-hour pause is recorded exactly when the consecutive-loss breaker fires
with no active pause and the daily-loss limit not already hit (the
daily-loss check runs first); the daily stats reset at the next calendar
day on load. -/
theorem can_trade_today_policy (cfg : RiskConfig) (stats : DailyStats)
    (now : ℚ) (saved : DailyStats) (today : ℤ) :
    (stats.pnl_usd ≤ -cfg.daily_loss_limit →
      (can_trade_today cfg stats now).1 = false) ∧
    (cfg.max_consecutive_losses ≤ stats.consecutive_losses →
      (can_trade_today cfg stats now).1 = false) ∧
    (stats.paused_until = none →
      -cfg.daily_loss_limit < stats.pnl_usd →
      cfg.max_consecutive_losses ≤ stats.consecutive_losses →
      can_trade_today cfg stats now =
        (false, { stats with paused_until := some (now + 86400) })) ∧
    (saved.date ≠ today → load_state (some saved) today = new_day today) := by
  refine ⟨?_, ?_, ?_, ?_⟩
  · intro h
    cases hp : stats.paused_until with
    | none => simp [can_trade_today, hp, circuit_checks, h]
    | some p =>
        by_cases hnp : now < p
        · simp [can_trade_today, hp, hnp]
        · simp [can_trade_today, hp, hnp, circuit_checks, h]
  · intro h
    cases hp : stats.paused_until with
    | none =>
        by_cases hl : stats.pnl_usd ≤ -cfg.daily_loss_limit <;>
          simp [can_trade_today, hp, circuit_checks, h, hl]
    | some p =>
        by_cases hnp : now < p
        · simp [can_trade_today, hp, hnp]
        · by_cases hl : stats.pnl_usd ≤ -cfg.daily_loss_limit <;>
            simp [can_trade_today, hp, hnp, circuit_checks, h, hl]
  · intro hp hl hc
    simp [can_trade_today, hp, circuit_checks, not_le.mpr hl, hc]
  · intro h
    simp [load_state, h]

/-- Witness for `can_trade_today_policy`: limit `3/2`, max streak `2`, stats
with PnL exactly `−3/2`. -/
theorem can_trade_today_policy_witness :
    (-(3/2) : ℚ) ≤ -(({} : RiskConfig).daily_loss_limit) ∧
    (can_trade_today {} { date := 0, pnl_usd := -(3/2) } 0).1 = false :=
  ⟨by norm_num, (can_trade_today_policy {} { date := 0, pnl_usd := -(3/2) }
      0 { date := 0 } 0).1 (by norm_num)⟩

/-- C8 counterexample: when the consecutive-loss count has reached the
maximum but the daily PnL is also at the loss limit, `can_trade_today`
returns false without recording any 24-hour pause (`paused_until` stays
`none`), contradicting ".. returns false with a fixed 24-hour pause ..
regardless of daily PnL". -/
theorem can_trade_today_no_pause_counterexample :
    (({} : RiskConfig)).max_consecutive_losses ≤
      (({ date := 0, pnl_usd := -(3/2), consecutive_losses := 2 } : DailyStats)).consecutive_losses ∧
    (can_trade_today {} { date := 0, pnl_usd := -(3/2), consecutive_losses := 2 } 0).1 = false ∧
    (can_trade_today {} { date := 0, pnl_usd := -(3/2), consecutive_losses := 2 } 0).2.paused_until = none := by
  refine ⟨by norm_num, ?_, ?_⟩ <;>
    norm_num [can_trade_today, circuit_checks]

/-- C10: `record_trade` counts a trade with exactly zero PnL as a loss,
incrementing both the loss count and the consecutive-loss streak; only
strictly positive PnL counts as a win and resets the streak; any
non-positive PnL extends the streak. -/
theorem record_trade_zero_is_loss (stats : DailyStats) :
    ((record_trade stats 0).losses = stats.losses + 1 ∧
      (record_trade stats 0).consecutive_losses = stats.consecutive_losses + 1 ∧
      (record_trade stats 0).wins = stats.wins) ∧
    (∀ pnl : ℚ, 0 < pnl →
      (record_trade stats pnl).wins = stats.wins + 1 ∧
      (record_trade stats pnl).consecutive_losses = 0) ∧
    (∀ pnl : ℚ, pnl ≤ 0 →
      (record_trade stats pnl).losses = stats.losses + 1 ∧
      (record_trade stats pnl).consecutive_losses = stats.consecutive_losses + 1) := by
  refine ⟨?_, ?_, ?_⟩
  · simp [record_trade]
  · intro pnl h
    simp [record_trade, h]
  · intro pnl h
    simp [record_trade, not_lt.mpr h]

/-- Witness for `record_trade_zero_is_loss` on fresh stats: a zero-PnL trade
moves the loss count and streak from 0 to 1. -/
theorem record_trade_zero_is_loss_witness :
    (record_trade (new_day 0) 0).losses = (new_day 0).losses + 1 ∧
    (0:ℚ) < 1 ∧ (record_trade (new_day 0) 1).consecutive_losses = 0 :=
  ⟨(record_trade_zero_is_loss (new_day 0)).1.1, by norm_num,
    ((record_trade_zero_is_loss (new_day 0)).2.1 1 (by norm_num)).2⟩

/-- C9 amended: a sizing request whose stop price equals the entry price
(zero stop distance) makes `PositionSizer.calculate` raise `ValueError`
(modelled as `Except.error`), rather than returning an explicit error value
for the caller to check. -/
theorem position_sizer_zero_stop_raises (sz : PositionSizer)
    (entry_price stop_price pip_value pip_size : ℚ)
    (h : stop_price = entry_price) :
    sz.calculate entry_price stop_price pip_value pip_size =
      Except.error "Stop price cannot equal entry price" := by
  simp [PositionSizer.calculate, h]

/-- Witness for `position_sizer_zero_stop_raises` at entry = stop = 1.34. -/
theorem position_sizer_zero_stop_raises_witness :
    (1.34 : ℚ) = 1.34 ∧
    ({ account_balance := 1000 } : PositionSizer).calculate 1.34 1.34 (74/1000) (1/10000) =
      Except.error "Stop price cannot equal entry price" :=
  ⟨rfl, position_sizer_zero_stop_raises { account_balance := 1000 } 1.34 1.34
    (74/1000) (1/10000) rfl⟩

/-- C9 counterexample: at zero stop distance the sizing operation does not
return a `PositionSize` value at all — it raises (`Except.error`), so there
is no returned error value for the caller to check. -/
theorem position_sizer_zero_stop_counterexample :
    (∀ v : PositionSize,
      ({ account_balance := 1000 } : PositionSizer).calculate 1.34 1.34 (74/1000) (1/10000) ≠
        Except.ok v) ∧
    ({ account_balance := 1000 } : PositionSizer).calculate 1.34 1.34 (74/1000) (1/10000) =
      Except.error "Stop price cannot equal entry price" := by
  constructor
  · intro v
    simp [PositionSizer.calculate]
  · simp [PositionSizer.calculate]

@[simp]
theorem open_sizes_sum_nil : open_sizes_sum [] = 0 := rfl

@[simp]
theorem open_sizes_sum_cons (k : String) (v : TokenPosition)
    (rest : List (String × TokenPosition)) :
    open_sizes_sum ((k, v) :: rest) = open_size v + open_sizes_sum rest := by
  simp [open_sizes_sum]

theorem open_sizes_sum_append_single (ps : List (String × TokenPosition))
    (k : String) (p : TokenPosition) :
    open_sizes_sum (ps ++ [(k, p)]) = open_sizes_sum ps + open_size p := by
  induction ps with
  | nil => simp
  | cons kv rest ih =>
      obtain ⟨k', v'⟩ := kv
      simp [ih]
      ring

theorem open_sizes_sum_set (ps : List (String × TokenPosition)) (symbol : String)
    {p : TokenPosition} (q : TokenPosition)
    (h : lookup_position ps symbol = some p) :
    open_sizes_sum (set_position ps symbol q) =
      open_sizes_sum ps - open_size p + open_size q := by
  induction ps with
  | nil => simp [lookup_position] at h
  | cons kv rest ih =>
      obtain ⟨k, v⟩ := kv
      by_cases hk : k = symbol
      · rw [lookup_position, if_pos hk] at h
        obtain rfl : v = p := Option.some.inj h
        rw [set_position, if_pos hk]
        simp
        ring
      · rw [lookup_position, if_neg hk] at h
        rw [set_position, if_neg hk]
        simp [ih h]
        ring

theorem open_sizes_sum_del (ps : List (String × TokenPosition)) (symbol : String)
    {p : TokenPosition} (h : lookup_position ps symbol = some p) :
    open_sizes_sum (del_position ps symbol) =
      open_sizes_sum ps - open_size p := by
  induction ps with
  | nil => simp [lookup_position] at h
  | cons kv rest ih =>
      obtain ⟨k, v⟩ := kv
      by_cases hk : k = symbol
      · rw [lookup_position, if_pos hk] at h
        obtain rfl : v = p := Option.some.inj h
        rw [del_position, if_pos hk]
        simp
      · rw [lookup_position, if_neg hk] at h
        rw [del_position, if_neg hk]
        simp [ih h]
        ring

theorem lookup_set_self (ps : List (String × TokenPosition)) (symbol : String)
    {p : TokenPosition} (q : TokenPosition)
    (h : lookup_position ps symbol = some p) :
    lookup_position (set_position ps symbol q) symbol = some q := by
  induction ps with
  | nil => simp [lookup_position] at h
  | cons kv rest ih =>
      obtain ⟨k, v⟩ := kv
      by_cases hk : k = symbol
      · rw [set_position, if_pos hk, lookup_position, if_pos hk]
      · rw [lookup_position, if_neg hk] at h
        rw [set_position, if_neg hk, lookup_position, if_neg hk]
        exact ih h

theorem lookup_eq_none_of_not_mem (ps : List (String × TokenPosition))
    (symbol : String) (h : symbol ∉ ps.map Prod.fst) :
    lookup_position ps symbol = none := by
  induction ps with
  | nil => rfl
  | cons kv rest ih =>
      obtain ⟨k, v⟩ := kv
      simp only [List.map_cons, List.mem_cons, not_or] at h
      rw [lookup_position, if_neg (fun hk => h.1 hk.symm)]
      exact ih h.2

theorem lookup_del_self (ps : List (String × TokenPosition)) (symbol : String)
    (h : (ps.map Prod.fst).Nodup) :
    lookup_position (del_position ps symbol) symbol = none := by
  induction ps with
  | nil => rfl
  | cons kv rest ih =>
      obtain ⟨k, v⟩ := kv
      simp only [List.map_cons, List.nodup_cons] at h
      by_cases hk : k = symbol
      · rw [del_position, if_pos hk]
        subst hk
        exact lookup_eq_none_of_not_mem rest k h.1
      · rw [del_position, if_neg hk, lookup_position, if_neg hk]
        exact ih h.2


theorem I2_open_position (s : PortfolioState) (symbol address : String)
    (entry_price size_usd hype_score now : ℚ) (risk_level : RiskLevel)
    (h : capital_invariant s) :
    capital_invariant
      (open_position s symbol address entry_price size_usd hype_score risk_level now).2 := by
  unfold capital_invariant at h ⊢
  by_cases h1 : can_open_position s size_usd
  · by_cases h2 : has_open_position s symbol
    · simpa [open_position, h1, h2] using h
    · cases hl : lookup_position s.positions symbol with
      | none =>
          simp [open_position, h1, h2, dict_insert, hl,
            open_sizes_sum_append_single, open_size, is_open_status]
          linarith
      | some p =>
          have h2' : ¬(p.status = PositionStatus.opened ∨
              p.status = PositionStatus.scaledOut) := by
            unfold has_open_position at h2
            rw [hl] at h2
            simpa [is_open_status] using h2
          simp [open_position, h1, h2, dict_insert, hl,
            open_sizes_sum_set s.positions symbol _ hl, open_size,
            is_open_status, h2']
          linarith
  · simpa [open_position, h1] using h

theorem I2_execute_dca (s : PortfolioState) (symbol : String)
    (dca_price dca_size : ℚ) (h : capital_invariant s) :
    capital_invariant (execute_dca s symbol dca_price dca_size).2 := by
  unfold capital_invariant at h ⊢
  cases hl : lookup_position s.positions symbol with
  | none => simpa [execute_dca, hl] using h
  | some pos =>
      by_cases hst : pos.status = PositionStatus.opened
      · by_cases hdca : pos.dca_done
        · simpa [execute_dca, hl, hst, hdca] using h
        · by_cases hav : s.available_capital < dca_size
          · simpa [execute_dca, hl, hst, hdca, hav] using h
          · have hp : open_size pos = pos.size_usd := by
              simp [open_size, is_open_status, hst]
            simp [execute_dca, hl, hst, hdca, hav,
              open_sizes_sum_set s.positions symbol _ hl, hp, open_size,
              is_open_status]
            linarith
      · simpa [execute_dca, hl, hst] using h

theorem I2_close_portion (s : PortfolioState) (symbol : String)
    (exit_price portion : ℚ) (h : capital_invariant s) :
    capital_invariant (close_portion s symbol exit_price portion).2 := by
  unfold capital_invariant at h ⊢
  cases hl : lookup_position s.positions symbol with
  | none => simpa [close_portion, hl] using h
  | some pos =>
      by_cases hst : pos.status = PositionStatus.opened
      · have hp : open_size pos = pos.size_usd := by
          simp [open_size, is_open_status, hst]
        simp [close_portion, hl, hst,
          open_sizes_sum_set s.positions symbol _ hl, hp, open_size,
          is_open_status]
        linarith
      · simpa [close_portion, hl, hst] using h

theorem I2_close_position (s : PortfolioState) (symbol : String)
    (exit_price now : ℚ) (reason : CloseReason) (h : capital_invariant s) :
    capital_invariant (close_position s symbol exit_price reason now).2 := by
  unfold capital_invariant at h ⊢
  cases hl : lookup_position s.positions symbol with
  | none => simpa [close_position, hl] using h
  | some pos =>
      by_cases hst : is_open_status pos.status
      · have hp : open_size pos = pos.size_usd := by
          simp [open_size, hst]
        simp [close_position, hl, hst,
          open_sizes_sum_del s.positions symbol hl, hp]
        linarith
      · simpa [close_position, hl, hst] using h

/-- C4: invariant I2 — `available_capital + Σ open sizes =
initial_capital + Σ realized PnL` — is preserved by every open, DCA,
partial-close and full-close mutation of the portfolio (exact arithmetic):
open deducts the size from available capital, and close releases the
remaining size plus its realized PnL back to available capital. -/
theorem portfolio_capital_invariant (s : PortfolioState) (symbol address : String)
    (entry_price size_usd hype_score dca_price dca_size exit_price portion now : ℚ)
    (risk_level : RiskLevel) (reason : CloseReason)
    (h : capital_invariant s) :
    capital_invariant
      (open_position s symbol address entry_price size_usd hype_score risk_level now).2 ∧
    capital_invariant (execute_dca s symbol dca_price dca_size).2 ∧
    capital_invariant (close_portion s symbol exit_price portion).2 ∧
    capital_invariant (close_position s symbol exit_price reason now).2 :=
  ⟨I2_open_position s symbol address entry_price size_usd hype_score now risk_level h,
   I2_execute_dca s symbol dca_price dca_size h,
   I2_close_portion s symbol exit_price portion h,
   I2_close_position s symbol exit_price now reason h⟩

/-- Witness for `portfolio_capital_invariant`: the default portfolio
satisfies I2, and all four mutations preserve it there. -/
theorem portfolio_capital_invariant_witness :
    capital_invariant ({} : PortfolioState) ∧
    capital_invariant
      (open_position {} "SOL" "addr" 100 3 50 RiskLevel.moderate 0).2 :=
  ⟨by simp [capital_invariant],
    (portfolio_capital_invariant {} "SOL" "addr" 100 3 50 0 0 0 0 0
      RiskLevel.moderate CloseReason.tp1 (by simp [capital_invariant])).1⟩

/-- C5: DCA on a position whose DCA flag is already set, and closing a
CLOSED (or absent) position, are structured "not applicable" no-ops; in
particular the second of two consecutive DCA or full-close invocations on
the same symbol returns the refusal result and leaves the entire portfolio
state (positions, capital, cumulative PnL) unchanged — no double-counting. -/
theorem dca_and_close_idempotent (s s' : PortfolioState) (symbol : String)
    (dca_price dca_size dca_price2 dca_size2 exit_price exit_price2 now now2 pnl : ℚ)
    (reason reason2 : CloseReason)
    (hnodup : (s.positions.map Prod.fst).Nodup) :
    (∀ p, lookup_position s.positions symbol = some p → p.dca_done = true →
      execute_dca s symbol dca_price dca_size = (false, s)) ∧
    (∀ p, lookup_position s.positions symbol = some p →
      p.status = PositionStatus.closed →
      close_position s symbol exit_price reason now = ((false, 0), s)) ∧
    (execute_dca s symbol dca_price dca_size = (true, s') →
      execute_dca s' symbol dca_price2 dca_size2 = (false, s')) ∧
    (close_position s symbol exit_price reason now = ((true, pnl), s') →
      close_position s' symbol exit_price2 reason2 now2 = ((false, 0), s')) := by
  refine ⟨?_, ?_, ?_, ?_⟩
  · intro p hl hdca
    by_cases hst : p.status = PositionStatus.opened <;>
      simp [execute_dca, hl, hst, hdca]
  · intro p hl hst
    simp [close_position, hl, is_open_status, hst]
  · intro hsucc
    cases hl : lookup_position s.positions symbol with
    | none => simp [execute_dca, hl] at hsucc
    | some pos =>
        by_cases hst : pos.status = PositionStatus.opened
        · by_cases hdca : pos.dca_done
          · simp [execute_dca, hl, hst, hdca] at hsucc
          · by_cases hav : s.available_capital < dca_size
            · simp [execute_dca, hl, hst, hdca, hav] at hsucc
            · have hs2 : s' = (execute_dca s symbol dca_price dca_size).2 := by
                rw [hsucc]
              subst hs2
              simp [execute_dca, hl, hst, hdca, hav,
                lookup_set_self s.positions symbol]
        · simp [execute_dca, hl, hst] at hsucc
  · intro hsucc
    cases hl : lookup_position s.positions symbol with
    | none => simp [close_position, hl] at hsucc
    | some pos =>
        by_cases hst : is_open_status pos.status
        · have hs2 : s' = (close_position s symbol exit_price reason now).2 := by
            rw [hsucc]
          subst hs2
          simp [close_position, hl, hst,
            lookup_del_self s.positions symbol hnodup]
        · simp [close_position, hl, hst] at hsucc

/-- Witness for `dca_and_close_idempotent`: on the concrete one-position
portfolio `pmStateW`, a first DCA succeeds and a second is refused with the
state unchanged; likewise a second close after a successful close. -/
theorem dca_and_close_idempotent_witness :
    ((pmStateW.positions.map Prod.fst).Nodup ∧
      execute_dca pmStateW "T" 1 1 = (true, (execute_dca pmStateW "T" 1 1).2) ∧
      execute_dca (execute_dca pmStateW "T" 1 1).2 "T" 1 1 =
        (false, (execute_dca pmStateW "T" 1 1).2)) ∧
    (close_position pmStateW "T" 2 CloseReason.stop_loss 0 =
        ((true, 1), (close_position pmStateW "T" 2 CloseReason.stop_loss 0).2) ∧
      close_position (close_position pmStateW "T" 2 CloseReason.stop_loss 0).2
          "T" 2 CloseReason.stop_loss 0 =
        ((false, 0), (close_position pmStateW "T" 2 CloseReason.stop_loss 0).2)) := by
  have hnodup : (pmStateW.positions.map Prod.fst).Nodup := by
    simp [pmStateW]
  have h1 : (execute_dca pmStateW "T" 1 1).1 = true := by
    simp [execute_dca, pmStateW, pmPosW, lookup_position]
  have hdca : execute_dca pmStateW "T" 1 1 =
      (true, (execute_dca pmStateW "T" 1 1).2) := Prod.ext h1 rfl
  have h2 : (close_position pmStateW "T" 2 CloseReason.stop_loss 0).1 = (true, 1) := by
    norm_num [close_position, pmStateW, pmPosW, lookup_position, is_open_status]
  have hclose : close_position pmStateW "T" 2 CloseReason.stop_loss 0 =
      ((true, 1), (close_position pmStateW "T" 2 CloseReason.stop_loss 0).2) :=
    Prod.ext h2 rfl
  exact ⟨⟨hnodup, hdca,
      (dca_and_close_idempotent pmStateW (execute_dca pmStateW "T" 1 1).2 "T"
        1 1 1 1 0 0 0 0 0 CloseReason.tp1 CloseReason.tp1 hnodup).2.2.1 hdca⟩,
    ⟨hclose,
      (dca_and_close_idempotent pmStateW
        (close_position pmStateW "T" 2 CloseReason.stop_loss 0).2 "T"
        0 0 0 0 2 2 0 0 1 CloseReason.stop_loss CloseReason.stop_loss
        hnodup).2.2.2 hclose⟩⟩

@[simp]
theorem apply_dca_breakeven (cfg : TradeConfig) (pos : Trade) (entry price : ℚ) :
    (apply_dca cfg pos entry price).breakeven_stop_price =
      pos.breakeven_stop_price := by
  simp only [apply_dca]; split_ifs <;> rfl

@[simp]
theorem apply_dca_tp1_hit (cfg : TradeConfig) (pos : Trade) (entry price : ℚ) :
    (apply_dca cfg pos entry price).tp1_hit = pos.tp1_hit := by
  simp only [apply_dca]; split_ifs <;> rfl

@[simp]
theorem apply_dca_highest (cfg : TradeConfig) (pos : Trade) (entry price : ℚ) :
    (apply_dca cfg pos entry price).highest_price = pos.highest_price := by
  simp only [apply_dca]; split_ifs <;> rfl

@[simp]
theorem apply_dca_last_trailing (cfg : TradeConfig) (pos : Trade) (entry price : ℚ) :
    (apply_dca cfg pos entry price).last_trailing_update =
      pos.last_trailing_update := by
  simp only [apply_dca]; split_ifs <;> rfl

@[simp]
theorem apply_dca_scale_levels (cfg : TradeConfig) (pos : Trade) (entry price : ℚ) :
    (apply_dca cfg pos entry price).scale_levels_hit = pos.scale_levels_hit := by
  simp only [apply_dca]; split_ifs <;> rfl

@[simp]
theorem update_highest_breakeven (pos : Trade) (price : ℚ) :
    (update_highest pos price).breakeven_stop_price =
      pos.breakeven_stop_price := by
  simp only [update_highest]; split_ifs <;> rfl

@[simp]
theorem update_highest_tp1_hit (pos : Trade) (price : ℚ) :
    (update_highest pos price).tp1_hit = pos.tp1_hit := by
  simp only [update_highest]; split_ifs <;> rfl

@[simp]
theorem update_highest_last_trailing (pos : Trade) (price : ℚ) :
    (update_highest pos price).last_trailing_update =
      pos.last_trailing_update := by
  simp only [update_highest]; split_ifs <;> rfl

@[simp]
theorem update_highest_scale_levels (pos : Trade) (price : ℚ) :
    (update_highest pos price).scale_levels_hit = pos.scale_levels_hit := by
  simp only [update_highest]; split_ifs <;> rfl

theorem update_highest_highest (pos : Trade) (price : ℚ) :
    (update_highest pos price).highest_price =
      max pos.highest_price price := by
  unfold update_highest
  rcases lt_or_le pos.highest_price price with h | h
  · rw [if_pos h, max_eq_right h.le]
  · rw [if_neg (not_lt.mpr h), max_eq_left h]

theorem arm_breakeven_of_armed (cfg : TradeConfig) (pos : Trade)
    (entry stop_price : ℚ) (h : 0 < pos.breakeven_stop_price) :
    arm_breakeven cfg pos entry stop_price = pos := by
  unfold arm_breakeven
  rw [if_neg]
  rintro ⟨-, -, h0⟩
  rw [h0] at h
  exact lt_irrefl 0 h

@[simp]
theorem arm_breakeven_tp1_hit (cfg : TradeConfig) (pos : Trade)
    (entry stop_price : ℚ) :
    (arm_breakeven cfg pos entry stop_price).tp1_hit = pos.tp1_hit := by
  simp only [arm_breakeven]; split_ifs <;> rfl

@[simp]
theorem arm_breakeven_highest (cfg : TradeConfig) (pos : Trade)
    (entry stop_price : ℚ) :
    (arm_breakeven cfg pos entry stop_price).highest_price =
      pos.highest_price := by
  simp only [arm_breakeven]; split_ifs <;> rfl

@[simp]
theorem arm_breakeven_last_trailing (cfg : TradeConfig) (pos : Trade)
    (entry stop_price : ℚ) :
    (arm_breakeven cfg pos entry stop_price).last_trailing_update =
      pos.last_trailing_update := by
  simp only [arm_breakeven]; split_ifs <;> rfl

@[simp]
theorem arm_breakeven_scale_levels (cfg : TradeConfig) (pos : Trade)
    (entry stop_price : ℚ) :
    (arm_breakeven cfg pos entry stop_price).scale_levels_hit =
      pos.scale_levels_hit := by
  simp only [arm_breakeven]; split_ifs <;> rfl

theorem stop_with_breakeven_ge_floor (pos : Trade) (stop_price : ℚ)
    (h : 0 < pos.breakeven_stop_price) :
    pos.breakeven_stop_price ≤ stop_with_breakeven pos stop_price := by
  unfold stop_with_breakeven
  rw [if_pos h]
  exact le_max_right _ _

@[simp]
theorem apply_trailing_breakeven (cfg : TradeConfig) (pos : Trade)
    (entry stop_price now : ℚ) :
    (apply_trailing cfg pos entry stop_price now).1.breakeven_stop_price =
      pos.breakeven_stop_price := by
  simp only [apply_trailing]; split_ifs <;> rfl

@[simp]
theorem apply_trailing_tp1_hit (cfg : TradeConfig) (pos : Trade)
    (entry stop_price now : ℚ) :
    (apply_trailing cfg pos entry stop_price now).1.tp1_hit = pos.tp1_hit := by
  simp only [apply_trailing]; split_ifs <;> rfl

@[simp]
theorem apply_trailing_highest (cfg : TradeConfig) (pos : Trade)
    (entry stop_price now : ℚ) :
    (apply_trailing cfg pos entry stop_price now).1.highest_price =
      pos.highest_price := by
  simp only [apply_trailing]; split_ifs <;> rfl

@[simp]
theorem apply_trailing_scale_levels (cfg : TradeConfig) (pos : Trade)
    (entry stop_price now : ℚ) :
    (apply_trailing cfg pos entry stop_price now).1.scale_levels_hit =
      pos.scale_levels_hit := by
  simp only [apply_trailing]; split_ifs <;> rfl

theorem apply_trailing_stop_ge (cfg : TradeConfig) (pos : Trade)
    (entry stop_price now : ℚ) :
    stop_price ≤ (apply_trailing cfg pos entry stop_price now).2 := by
  simp only [apply_trailing]
  split_ifs <;> try exact le_refl _
  all_goals exact le_of_lt (by assumption)

theorem apply_trailing_fires_ge_candidate (cfg : TradeConfig) (pos : Trade)
    (entry stop_price now : ℚ) (h1 : pos.tp1_hit = true)
    (h2 : cfg.use_trailing_stop = true)
    (h3 : cfg.trailing_update_interval ≤ now - pos.last_trailing_update)
    (h4 : 0 < pos.breakeven_stop_price) :
    trailing_candidate cfg pos ≤ (apply_trailing cfg pos entry stop_price now).2 := by
  simp only [apply_trailing, trailing_candidate]
  rw [if_pos ⟨h1, h2⟩, if_pos h3]
  simp only [if_pos h4]
  rcases lt_or_le stop_price
      (max (pos.highest_price * (1 - cfg.trailing_stop_percent / 100))
        pos.breakeven_stop_price) with h | h
  · rw [if_pos h]
  · rw [if_neg (not_lt.mpr h)]
    exact h

@[simp]
theorem trade_close_portion_breakeven (pos : Trade) (price portion : ℚ) :
    (trade_close_portion pos price portion).breakeven_stop_price =
      pos.breakeven_stop_price := rfl

@[simp]
theorem trade_close_portion_highest (pos : Trade) (price portion : ℚ) :
    (trade_close_portion pos price portion).highest_price =
      pos.highest_price := rfl

@[simp]
theorem trade_close_portion_scale_levels (pos : Trade) (price portion : ℚ) :
    (trade_close_portion pos price portion).scale_levels_hit =
      pos.scale_levels_hit := rfl

@[simp]
theorem trade_close_full_breakeven (pos : Trade) (price now : ℚ)
    (reason : CloseReason) :
    (trade_close_full pos price now reason).breakeven_stop_price =
      pos.breakeven_stop_price := rfl

@[simp]
theorem trade_close_full_highest (pos : Trade) (price now : ℚ)
    (reason : CloseReason) :
    (trade_close_full pos price now reason).highest_price =
      pos.highest_price := rfl

@[simp]
theorem trade_close_full_scale_levels (pos : Trade) (price now : ℚ)
    (reason : CloseReason) :
    (trade_close_full pos price now reason).scale_levels_hit =
      pos.scale_levels_hit := rfl

@[simp]
theorem apply_scaling_breakeven (cfg : TradeConfig) (pos : Trade)
    (entry price : ℚ) :
    (apply_scaling cfg pos entry price).1.breakeven_stop_price =
      pos.breakeven_stop_price := by
  simp only [apply_scaling]
  cases find_scale_index pos.scale_levels_hit entry price 0
      cfg.partial_scale_levels with
  | none => rfl
  | some i => dsimp only; split_ifs <;> rfl

@[simp]
theorem apply_scaling_highest (cfg : TradeConfig) (pos : Trade)
    (entry price : ℚ) :
    (apply_scaling cfg pos entry price).1.highest_price =
      pos.highest_price := by
  simp only [apply_scaling]
  cases find_scale_index pos.scale_levels_hit entry price 0
      cfg.partial_scale_levels with
  | none => rfl
  | some i => dsimp only; split_ifs <;> rfl

@[simp]
theorem apply_legacy_targets_breakeven (cfg : TradeConfig) (atr : ℚ)
    (pos : Trade) (entry price now : ℚ) :
    (apply_legacy_targets cfg atr pos entry price now).breakeven_stop_price =
      pos.breakeven_stop_price := by
  simp only [apply_legacy_targets]
  split_ifs <;> rfl

@[simp]
theorem apply_legacy_targets_highest (cfg : TradeConfig) (atr : ℚ)
    (pos : Trade) (entry price now : ℚ) :
    (apply_legacy_targets cfg atr pos entry price now).highest_price =
      pos.highest_price := by
  simp only [apply_legacy_targets]
  split_ifs <;> rfl

@[simp]
theorem apply_legacy_targets_scale_levels (cfg : TradeConfig) (atr : ℚ)
    (pos : Trade) (entry price now : ℚ) :
    (apply_legacy_targets cfg atr pos entry price now).scale_levels_hit =
      pos.scale_levels_hit := by
  simp only [apply_legacy_targets]
  split_ifs <;> rfl

theorem arm_breakeven_fires (cfg : TradeConfig) (pos : Trade)
    (entry stop_price : ℚ) (h1 : pos.tp1_hit = true)
    (h2 : cfg.use_breakeven_stop = true) (h3 : pos.breakeven_stop_price = 0)
    (h4 : stop_price < entry * (1 + cfg.breakeven_buffer_percent / 100)) :
    (arm_breakeven cfg pos entry stop_price).breakeven_stop_price =
      entry * (1 + cfg.breakeven_buffer_percent / 100) := by
  simp only [arm_breakeven]
  rw [if_pos ⟨h1, h2, h3⟩, if_pos h4]

theorem pre_trailing_def (cfg : TradeConfig) (atr : ℚ)
    (bb : Option BollingerBands) (pos : Trade) (entry price : ℚ) :
    pre_trailing cfg atr bb pos entry price =
      (arm_breakeven cfg (update_highest (apply_dca cfg pos entry price) price)
          entry
          (get_exit_levels atr bb entry cfg.use_atr_stop
            cfg.stop_loss_atr_multiplier cfg.stop_loss_max_percent).stop,
        stop_with_breakeven
          (arm_breakeven cfg (update_highest (apply_dca cfg pos entry price) price)
            entry
            (get_exit_levels atr bb entry cfg.use_atr_stop
              cfg.stop_loss_atr_multiplier cfg.stop_loss_max_percent).stop)
          (get_exit_levels atr bb entry cfg.use_atr_stop
            cfg.stop_loss_atr_multiplier cfg.stop_loss_max_percent).stop) := rfl

theorem stop_evaluation_def (cfg : TradeConfig) (atr : ℚ)
    (bb : Option BollingerBands) (pos : Trade) (entry price now : ℚ) :
    stop_evaluation cfg atr bb pos entry price now =
      apply_trailing cfg (pre_trailing cfg atr bb pos entry price).1 entry
        (pre_trailing cfg atr bb pos entry price).2 now := rfl

@[simp]
theorem pre_trailing_tp1_hit (cfg : TradeConfig) (atr : ℚ)
    (bb : Option BollingerBands) (pos : Trade) (entry price : ℚ) :
    (pre_trailing cfg atr bb pos entry price).1.tp1_hit = pos.tp1_hit := by
  rw [pre_trailing_def]; simp

@[simp]
theorem pre_trailing_last_trailing (cfg : TradeConfig) (atr : ℚ)
    (bb : Option BollingerBands) (pos : Trade) (entry price : ℚ) :
    (pre_trailing cfg atr bb pos entry price).1.last_trailing_update =
      pos.last_trailing_update := by
  rw [pre_trailing_def]; simp

@[simp]
theorem pre_trailing_scale_levels (cfg : TradeConfig) (atr : ℚ)
    (bb : Option BollingerBands) (pos : Trade) (entry price : ℚ) :
    (pre_trailing cfg atr bb pos entry price).1.scale_levels_hit =
      pos.scale_levels_hit := by
  rw [pre_trailing_def]; simp

theorem pre_trailing_highest (cfg : TradeConfig) (atr : ℚ)
    (bb : Option BollingerBands) (pos : Trade) (entry price : ℚ) :
    (pre_trailing cfg atr bb pos entry price).1.highest_price =
      max pos.highest_price price := by
  rw [pre_trailing_def]; simp [update_highest_highest]

theorem pre_trailing_of_armed (cfg : TradeConfig) (atr : ℚ)
    (bb : Option BollingerBands) (pos : Trade) (entry price : ℚ)
    (h : 0 < pos.breakeven_stop_price) :
    (pre_trailing cfg atr bb pos entry price).1.breakeven_stop_price =
      pos.breakeven_stop_price ∧
    pos.breakeven_stop_price ≤ (pre_trailing cfg atr bb pos entry price).2 := by
  have hX : 0 < (update_highest (apply_dca cfg pos entry price)
      price).breakeven_stop_price := by simpa using h
  rw [pre_trailing_def]
  dsimp only
  rw [arm_breakeven_of_armed cfg _ entry _ hX]
  constructor
  · simp
  · calc pos.breakeven_stop_price
        = (update_highest (apply_dca cfg pos entry price)
            price).breakeven_stop_price := by simp
      _ ≤ _ := stop_with_breakeven_ge_floor _ _ hX

theorem pre_trailing_arms (cfg : TradeConfig) (atr : ℚ)
    (bb : Option BollingerBands) (pos : Trade) (entry price : ℚ)
    (h1 : pos.tp1_hit = true) (h2 : cfg.use_breakeven_stop = true)
    (h3 : pos.breakeven_stop_price = 0)
    (h4 : (get_exit_levels atr bb entry cfg.use_atr_stop
        cfg.stop_loss_atr_multiplier cfg.stop_loss_max_percent).stop <
      entry * (1 + cfg.breakeven_buffer_percent / 100)) :
    (pre_trailing cfg atr bb pos entry price).1.breakeven_stop_price =
      entry * (1 + cfg.breakeven_buffer_percent / 100) := by
  rw [pre_trailing_def]
  dsimp only
  rw [arm_breakeven_fires cfg _ entry _ (by simp [h1]) h2 (by simp [h3]) h4]

@[simp]
theorem stop_evaluation_scale_levels (cfg : TradeConfig) (atr : ℚ)
    (bb : Option BollingerBands) (pos : Trade) (entry price now : ℚ) :
    (stop_evaluation cfg atr bb pos entry price now).1.scale_levels_hit =
      pos.scale_levels_hit := by
  rw [stop_evaluation_def]; simp

@[simp]
theorem stop_evaluation_tp1_hit (cfg : TradeConfig) (atr : ℚ)
    (bb : Option BollingerBands) (pos : Trade) (entry price now : ℚ) :
    (stop_evaluation cfg atr bb pos entry price now).1.tp1_hit =
      pos.tp1_hit := by
  rw [stop_evaluation_def]; simp

theorem stop_evaluation_highest (cfg : TradeConfig) (atr : ℚ)
    (bb : Option BollingerBands) (pos : Trade) (entry price now : ℚ) :
    (stop_evaluation cfg atr bb pos entry price now).1.highest_price =
      max pos.highest_price price := by
  rw [stop_evaluation_def]
  rw [apply_trailing_highest]
  exact pre_trailing_highest cfg atr bb pos entry price

theorem stop_evaluation_of_armed (cfg : TradeConfig) (atr : ℚ)
    (bb : Option BollingerBands) (pos : Trade) (entry price now : ℚ)
    (h : 0 < pos.breakeven_stop_price) :
    (stop_evaluation cfg atr bb pos entry price now).1.breakeven_stop_price =
      pos.breakeven_stop_price ∧
    pos.breakeven_stop_price ≤ (stop_evaluation cfg atr bb pos entry price now).2 := by
  obtain ⟨h1, h2⟩ := pre_trailing_of_armed cfg atr bb pos entry price h
  constructor
  · rw [stop_evaluation_def, apply_trailing_breakeven]
    exact h1
  · rw [stop_evaluation_def]
    exact le_trans h2 (apply_trailing_stop_ge _ _ _ _ _)

theorem stop_evaluation_arms (cfg : TradeConfig) (atr : ℚ)
    (bb : Option BollingerBands) (pos : Trade) (entry price now : ℚ)
    (h1 : pos.tp1_hit = true) (h2 : cfg.use_breakeven_stop = true)
    (h3 : pos.breakeven_stop_price = 0)
    (h4 : (get_exit_levels atr bb entry cfg.use_atr_stop
        cfg.stop_loss_atr_multiplier cfg.stop_loss_max_percent).stop <
      entry * (1 + cfg.breakeven_buffer_percent / 100)) :
    (stop_evaluation cfg atr bb pos entry price now).1.breakeven_stop_price =
      entry * (1 + cfg.breakeven_buffer_percent / 100) := by
  rw [stop_evaluation_def, apply_trailing_breakeven]
  exact pre_trailing_arms cfg atr bb pos entry price h1 h2 h3 h4

theorem manage_position_time_exit (cfg : TradeConfig) (atr : ℚ)
    (bb : Option BollingerBands) (pos : Trade) (price now : ℚ)
    (htime : cfg.use_time_exit = true ∧
      cfg.max_hold_time_minutes ≤ (now - pos.entry_time) / 60) :
    manage_position cfg atr bb pos price now =
      { pos := trade_close_full pos price now CloseReason.manual,
        stop_used := none, fired := none,
        closed := some CloseReason.manual } := by
  simp only [manage_position]
  rw [if_pos htime]

theorem manage_position_pos_breakeven (cfg : TradeConfig) (atr : ℚ)
    (bb : Option BollingerBands) (pos : Trade) (price now : ℚ)
    (htime : ¬(cfg.use_time_exit = true ∧
      cfg.max_hold_time_minutes ≤ (now - pos.entry_time) / 60)) :
    (manage_position cfg atr bb pos price now).pos.breakeven_stop_price =
      (stop_evaluation cfg atr bb pos pos.entry_price price now).1.breakeven_stop_price := by
  simp only [manage_position]
  rw [if_neg htime]
  split_ifs <;> simp

theorem manage_position_pos_highest (cfg : TradeConfig) (atr : ℚ)
    (bb : Option BollingerBands) (pos : Trade) (price now : ℚ)
    (htime : ¬(cfg.use_time_exit = true ∧
      cfg.max_hold_time_minutes ≤ (now - pos.entry_time) / 60)) :
    (manage_position cfg atr bb pos price now).pos.highest_price =
      (stop_evaluation cfg atr bb pos pos.entry_price price now).1.highest_price := by
  simp only [manage_position]
  rw [if_neg htime]
  split_ifs <;> simp

theorem manage_position_stop_used_eq (cfg : TradeConfig) (atr : ℚ)
    (bb : Option BollingerBands) (pos : Trade) (price now : ℚ)
    (htime : ¬(cfg.use_time_exit = true ∧
      cfg.max_hold_time_minutes ≤ (now - pos.entry_time) / 60)) :
    (manage_position cfg atr bb pos price now).stop_used =
      some (stop_evaluation cfg atr bb pos pos.entry_price price now).2 := by
  simp only [manage_position]
  rw [if_neg htime]
  split_ifs <;> rfl

/-- C2 amended: the breakeven stop is armed (to entry + fee buffer) at the
first stop evaluation after the position's `tp1_hit` flag is set — which
under the default partial-scaling config happens only when the FINAL scale
level is hit, not the first — and only when the base stop is still below
the breakeven price; once armed (`breakeven_stop_price > 0`) it is never
modified again, and every stop price the position is subsequently compared
against is at least that floor. -/
theorem breakeven_stop_behavior (cfg : TradeConfig) (atr : ℚ)
    (bb : Option BollingerBands) (pos : Trade) (price now : ℚ) :
    (pos.tp1_hit = true → cfg.use_breakeven_stop = true →
      pos.breakeven_stop_price = 0 →
      ¬(cfg.use_time_exit = true ∧
        cfg.max_hold_time_minutes ≤ (now - pos.entry_time) / 60) →
      (get_exit_levels atr bb pos.entry_price cfg.use_atr_stop
        cfg.stop_loss_atr_multiplier cfg.stop_loss_max_percent).stop <
        pos.entry_price * (1 + cfg.breakeven_buffer_percent / 100) →
      (manage_position cfg atr bb pos price now).pos.breakeven_stop_price =
        pos.entry_price * (1 + cfg.breakeven_buffer_percent / 100)) ∧
    (0 < pos.breakeven_stop_price →
      (manage_position cfg atr bb pos price now).pos.breakeven_stop_price =
        pos.breakeven_stop_price ∧
      ∀ s, (manage_position cfg atr bb pos price now).stop_used = some s →
        pos.breakeven_stop_price ≤ s) := by
  constructor
  · intro h1 h2 h3 htime h4
    rw [manage_position_pos_breakeven cfg atr bb pos price now htime]
    exact stop_evaluation_arms cfg atr bb pos pos.entry_price price now h1 h2 h3 h4
  · intro hbe
    by_cases htime : (cfg.use_time_exit = true ∧
      cfg.max_hold_time_minutes ≤ (now - pos.entry_time) / 60)
    · rw [manage_position_time_exit cfg atr bb pos price now htime]
      refine ⟨by simp, ?_⟩
      intro s hs
      simp at hs
    · obtain ⟨he, hf⟩ :=
        stop_evaluation_of_armed cfg atr bb pos pos.entry_price price now hbe
      refine ⟨?_, ?_⟩
      · rw [manage_position_pos_breakeven cfg atr bb pos price now htime]
        exact he
      · intro s hs
        rw [manage_position_stop_used_eq cfg atr bb pos price now htime] at hs
        rw [← Option.some.inj hs]
        exact hf

/-- C2 counterexample: on a position whose FIRST scale level has just been
hit (flags `[true, false, false]`, the state trader.py leaves after the
25% scale-out at +1.5%), the next evaluation does NOT arm a breakeven
stop: `tp1_hit` is still false, so `breakeven_stop_price` stays `0` —
the claim's "armed immediately after the FIRST profit target" fails. -/
theorem breakeven_not_armed_after_first_target :
    posAfterFirstScale.scale_levels_hit.getD 0 false = true ∧
    posAfterFirstScale.tp1_hit = false ∧
    posAfterFirstScale.breakeven_stop_price = 0 ∧
    (manage_position {} 0 none posAfterFirstScale 101 60).pos.breakeven_stop_price = 0 ∧
    (0 : ℚ) ≠ posAfterFirstScale.entry_price *
      (1 + ({} : TradeConfig).breakeven_buffer_percent / 100) := by
  refine ⟨rfl, rfl, rfl, ?_, by norm_num [posAfterFirstScale]⟩
  norm_num [manage_position, stop_evaluation, pre_trailing, apply_dca,
    check_position_size, update_highest, get_exit_levels, arm_breakeven,
    stop_with_breakeven, apply_trailing, apply_scaling, find_scale_index,
    trade_close_portion, posAfterFirstScale]

/-- Witness for `breakeven_stop_behavior`: arming fires on `posFinalScale`
(past the final scale level, `tp1_hit` set, nothing armed yet), and the
armed floor on `posTrailArmed` is preserved with every compared stop at or
above it. -/
theorem breakeven_stop_behavior_witness :
    (posFinalScale.tp1_hit = true ∧
      (manage_position {} 0 none posFinalScale 102 60).pos.breakeven_stop_price =
        posFinalScale.entry_price *
          (1 + ({} : TradeConfig).breakeven_buffer_percent / 100)) ∧
    ((0 : ℚ) < posTrailArmed.breakeven_stop_price ∧
      ((manage_position {} 0 none posTrailArmed 109 300).pos.breakeven_stop_price =
        posTrailArmed.breakeven_stop_price ∧
      ∀ s, (manage_position {} 0 none posTrailArmed 109 300).stop_used = some s →
        posTrailArmed.breakeven_stop_price ≤ s)) := by
  constructor
  · exact ⟨rfl, (breakeven_stop_behavior {} 0 none posFinalScale 102 60).1
      rfl rfl rfl (by norm_num [posFinalScale])
      (by norm_num [get_exit_levels, posFinalScale])⟩
  · exact ⟨by norm_num [posTrailArmed],
      (breakeven_stop_behavior {} 0 none posTrailArmed 109 300).2
        (by norm_num [posTrailArmed])⟩

theorem stop_evaluation_fires_ge_candidate (cfg : TradeConfig) (atr : ℚ)
    (bb : Option BollingerBands) (pos : Trade) (entry price now : ℚ)
    (h1 : pos.tp1_hit = true) (h2 : cfg.use_trailing_stop = true)
    (h3 : cfg.trailing_update_interval ≤ now - pos.last_trailing_update)
    (h4 : 0 < pos.breakeven_stop_price) :
    trailing_candidate cfg (stop_evaluation cfg atr bb pos entry price now).1 ≤
      (stop_evaluation cfg atr bb pos entry price now).2 := by
  have hPt : (pre_trailing cfg atr bb pos entry price).1.tp1_hit = true := by
    simpa using h1
  have hPl : (pre_trailing cfg atr bb pos entry price).1.last_trailing_update =
      pos.last_trailing_update := pre_trailing_last_trailing cfg atr bb pos entry price
  have hPb : 0 < (pre_trailing cfg atr bb pos entry price).1.breakeven_stop_price := by
    rw [(pre_trailing_of_armed cfg atr bb pos entry price h4).1]
    exact h4
  have hkey := apply_trailing_fires_ge_candidate cfg
    (pre_trailing cfg atr bb pos entry price).1 entry
    (pre_trailing cfg atr bb pos entry price).2 now hPt h2
    (by rw [hPl]; exact h3) hPb
  rw [stop_evaluation_def]
  have hc : trailing_candidate cfg
      (apply_trailing cfg (pre_trailing cfg atr bb pos entry price).1 entry
        (pre_trailing cfg atr bb pos entry price).2 now).1 =
      trailing_candidate cfg (pre_trailing cfg atr bb pos entry price).1 := by
    simp [trailing_candidate]
  rw [hc]
  exact hkey

theorem trailing_candidate_mono (cfg : TradeConfig) (p q : Trade)
    (hh : p.highest_price ≤ q.highest_price)
    (hb : p.breakeven_stop_price = q.breakeven_stop_price)
    (hpct : cfg.trailing_stop_percent ≤ 100) :
    trailing_candidate cfg p ≤ trailing_candidate cfg q := by
  unfold trailing_candidate
  rw [hb]
  refine max_le_max ?_ le_rfl
  refine mul_le_mul_of_nonneg_right hh ?_
  linarith

/-- C3 amended: the trailing stop is a call-local recomputation, not a
persisted value, so the effective stop is NOT monotone across observations
(it falls back to `max base_stop breakeven` between re-evaluations); what
does hold once a breakeven floor is armed is that the position's
highest-price tracker never decreases, the armed floor never changes, the
trailing candidate `max (highest · (1 − trailing_pct)) breakeven_floor`
never decreases from one observation to the next, and at every observation
where the trailing re-evaluation fires (at most once per interval) the
stop compared against the price is at least that candidate. -/
theorem trailing_stop_recomputation (cfg : TradeConfig) (atr : ℚ)
    (bb : Option BollingerBands) (pos : Trade) (price now : ℚ)
    (hbe : 0 < pos.breakeven_stop_price)
    (hpct : cfg.trailing_stop_percent ≤ 100) :
    pos.highest_price ≤
      (manage_position cfg atr bb pos price now).pos.highest_price ∧
    (manage_position cfg atr bb pos price now).pos.breakeven_stop_price =
      pos.breakeven_stop_price ∧
    trailing_candidate cfg pos ≤
      trailing_candidate cfg (manage_position cfg atr bb pos price now).pos ∧
    (pos.tp1_hit = true → cfg.use_trailing_stop = true →
      cfg.trailing_update_interval ≤ now - pos.last_trailing_update →
      ∀ s, (manage_position cfg atr bb pos price now).stop_used = some s →
        trailing_candidate cfg (manage_position cfg atr bb pos price now).pos ≤ s) := by
  by_cases htime : (cfg.use_time_exit = true ∧
    cfg.max_hold_time_minutes ≤ (now - pos.entry_time) / 60)
  · rw [manage_position_time_exit cfg atr bb pos price now htime]
    refine ⟨by simp, by simp, by simp [trailing_candidate], ?_⟩
    intro _ _ _ s hs
    simp at hs
  · have hhigh : (manage_position cfg atr bb pos price now).pos.highest_price =
        max pos.highest_price price := by
      rw [manage_position_pos_highest cfg atr bb pos price now htime,
        stop_evaluation_highest]
    have hbe' : (manage_position cfg atr bb pos price now).pos.breakeven_stop_price =
        pos.breakeven_stop_price := by
      rw [manage_position_pos_breakeven cfg atr bb pos price now htime,
        (stop_evaluation_of_armed cfg atr bb pos pos.entry_price price now hbe).1]
    refine ⟨?_, hbe', ?_, ?_⟩
    · rw [hhigh]
      exact le_max_left _ _
    · exact trailing_candidate_mono cfg pos _
        (by rw [hhigh]; exact le_max_left _ _) hbe'.symm hpct
    · intro h1 h2 h3 s hs
      rw [manage_position_stop_used_eq cfg atr bb pos price now htime] at hs
      rw [← Option.some.inj hs]
      have hfix : trailing_candidate cfg (manage_position cfg atr bb pos price now).pos =
          trailing_candidate cfg
            (stop_evaluation cfg atr bb pos pos.entry_price price now).1 := by
        unfold trailing_candidate
        rw [hhigh, stop_evaluation_highest,
          manage_position_pos_breakeven cfg atr bb pos price now htime]
      rw [hfix]
      exact stop_evaluation_fires_ge_candidate cfg atr bb pos pos.entry_price
        price now h1 h2 h3 hbe

/-- C3 counterexample: on `posTrailArmed` (floor 100.1, peak 110), the
observation at t=300 re-evaluates the trailing stop and compares the price
against 108.9, but the observation at t=400 (inside the 300 s interval) is
compared against only 100.1 — the effective stop DECREASED from one
observation to the next, refuting monotonicity of the effective stop. -/
theorem trailing_stop_not_monotone_counterexample :
    (manage_position {} 0 none posTrailArmed 109 300).stop_used =
      some (1089/10) ∧
    (manage_position {} 0 none
        (manage_position {} 0 none posTrailArmed 109 300).pos 109 400).stop_used =
      some (1001/10) ∧
    (1001/10 : ℚ) < 1089/10 := by
  refine ⟨?_, ?_, by norm_num⟩ <;>
    norm_num [manage_position, stop_evaluation, pre_trailing, apply_dca,
      check_position_size, update_highest, get_exit_levels, arm_breakeven,
      stop_with_breakeven, apply_trailing, apply_scaling, find_scale_index,
      trade_close_portion, posTrailArmed]

/-- Witness for `trailing_stop_recomputation` on `posTrailArmed` at price
109, t = 300. -/
theorem trailing_stop_recomputation_witness :
    (0 : ℚ) < posTrailArmed.breakeven_stop_price ∧
    ({} : TradeConfig).trailing_stop_percent ≤ 100 ∧
    (posTrailArmed.highest_price ≤
        (manage_position {} 0 none posTrailArmed 109 300).pos.highest_price ∧
      (manage_position {} 0 none posTrailArmed 109 300).pos.breakeven_stop_price =
        posTrailArmed.breakeven_stop_price ∧
      trailing_candidate {} posTrailArmed ≤
        trailing_candidate {} (manage_position {} 0 none posTrailArmed 109 300).pos ∧
      (posTrailArmed.tp1_hit = true → ({} : TradeConfig).use_trailing_stop = true →
        ({} : TradeConfig).trailing_update_interval ≤
          300 - posTrailArmed.last_trailing_update →
        ∀ s, (manage_position {} 0 none posTrailArmed 109 300).stop_used = some s →
          trailing_candidate {} (manage_position {} 0 none posTrailArmed 109 300).pos ≤ s)) :=
  ⟨by norm_num [posTrailArmed], by norm_num,
    trailing_stop_recomputation {} 0 none posTrailArmed 109 300
      (by norm_num [posTrailArmed]) (by norm_num)⟩

theorem getD_set_self (l : List Bool) (i : ℕ) (a : Bool) (h : i < l.length) :
    (l.set i a).getD i false = a := by
  induction l generalizing i with
  | nil => simp at h
  | cons b t ih =>
      cases i with
      | zero => rfl
      | succ n => exact ih n (by simpa using h)

theorem getD_set_ne (l : List Bool) (i j : ℕ) (a : Bool) (h : i ≠ j) :
    (l.set i a).getD j false = l.getD j false := by
  induction l generalizing i j with
  | nil => simp
  | cons b t ih =>
      cases i with
      | zero =>
          cases j with
          | zero => exact absurd rfl h
          | succ m => rfl
      | succ n =>
          cases j with
          | zero => rfl
          | succ m => exact ih n m (fun hnm => h (by rw [hnm]))

theorem count_true_set_le (l : List Bool) (i : ℕ) :
    (l.set i true).count true ≤ l.count true + 1 := by
  induction l generalizing i with
  | nil => simp
  | cons b t ih =>
      cases i with
      | zero =>
          cases b <;> simp [List.count_cons] <;> omega
      | succ n =>
          have := ih n
          cases b <;> simp [List.count_cons] <;> omega

theorem pairwise_snd_getD_le (levels : List (ℚ × ℚ))
    (hs : levels.Pairwise (fun a b => a.2 ≤ b.2)) (k i : ℕ) (hk : k < i)
    (hi : i < levels.length) :
    (levels.getD k (0, 0)).2 ≤ (levels.getD i (0, 0)).2 := by
  have hk' : k < levels.length := lt_trans hk hi
  rw [List.getD_eq_get?, List.getD_eq_get?, List.get?_eq_get hk',
    List.get?_eq_get hi]
  simp only [Option.getD_some]
  exact List.pairwise_iff_get.mp hs ⟨k, hk'⟩ ⟨i, hi⟩ hk

theorem find_scale_index_spec (hit : List Bool) (entry price : ℚ) :
    ∀ (levels : List (ℚ × ℚ)) (j i : ℕ),
      find_scale_index hit entry price j levels = some i →
      j ≤ i ∧ i - j < levels.length ∧ i < hit.length ∧
      hit.getD i false = false ∧
      entry * (1 + (levels.getD (i - j) (0, 0)).2 / 100) ≤ price ∧
      ∀ k, j ≤ k → k < i →
        ¬(k < hit.length ∧ hit.getD k false = false ∧
          entry * (1 + (levels.getD (k - j) (0, 0)).2 / 100) ≤ price) := by
  intro levels
  induction levels with
  | nil => intro j i h; simp [find_scale_index] at h
  | cons hd tl ih =>
      intro j i h
      obtain ⟨portion, pct⟩ := hd
      simp only [find_scale_index] at h
      by_cases hc : j < hit.length ∧ hit.getD j false = false ∧
          entry * (1 + pct / 100) ≤ price
      · rw [if_pos hc] at h
        obtain rfl : j = i := Option.some.inj h
        refine ⟨le_refl _, by simp, hc.1, hc.2.1, ?_, ?_⟩
        · simpa using hc.2.2
        · intro k hk1 hk2
          omega
      · rw [if_neg hc] at h
        obtain ⟨h1, h2, h3, h4, h5, h6⟩ := ih (j + 1) i h
        have hji : j < i := lt_of_lt_of_le (Nat.lt_succ_self j) h1
        refine ⟨le_of_lt hji, by simp only [List.length_cons]; omega, h3, h4, ?_, ?_⟩
        · have hij : i - j = (i - (j + 1)) + 1 := by omega
          rw [hij]
          simpa using h5
        · intro k hk1 hk2
          rcases eq_or_lt_of_le hk1 with rfl | hk
          · simpa using hc
          · have hrec := h6 k hk hk2
            have hkj2 : k - j = (k - (j + 1)) + 1 := by omega
            rw [hkj2]
            simpa using hrec

theorem apply_scaling_flags_eq (cfg : TradeConfig) (pos : Trade)
    (entry price : ℚ) (i : ℕ)
    (hfi : find_scale_index pos.scale_levels_hit entry price 0
      cfg.partial_scale_levels = some i) :
    (apply_scaling cfg pos entry price).1.scale_levels_hit =
      pos.scale_levels_hit.set i true := by
  simp only [apply_scaling, hfi]
  split_ifs <;> rfl

theorem apply_scaling_flags_none (cfg : TradeConfig) (pos : Trade)
    (entry price : ℚ)
    (hfi : find_scale_index pos.scale_levels_hit entry price 0
      cfg.partial_scale_levels = none) :
    (apply_scaling cfg pos entry price).1.scale_levels_hit =
      pos.scale_levels_hit := by
  simp only [apply_scaling, hfi]

theorem apply_scaling_flags_ordered (cfg : TradeConfig) (pos : Trade)
    (entry price : ℚ) (hentry : 0 < entry)
    (hsorted : cfg.partial_scale_levels.Pairwise (fun a b => a.2 ≤ b.2))
    (hdc : flags_downward_closed pos.scale_levels_hit) :
    flags_downward_closed (apply_scaling cfg pos entry price).1.scale_levels_hit ∧
    count_hits (apply_scaling cfg pos entry price).1.scale_levels_hit ≤
      count_hits pos.scale_levels_hit + 1 := by
  cases hfi : find_scale_index pos.scale_levels_hit entry price 0
      cfg.partial_scale_levels with
  | none =>
      rw [apply_scaling_flags_none cfg pos entry price hfi]
      exact ⟨hdc, Nat.le_succ_of_le le_rfl⟩
  | some i =>
      obtain ⟨-, hlen, hihit, hunhit, htarget, hmin⟩ :=
        find_scale_index_spec pos.scale_levels_hit entry price
          cfg.partial_scale_levels 0 i hfi
      simp only [Nat.sub_zero] at hlen htarget
      have hbelow : ∀ k, k < i → pos.scale_levels_hit.getD k false = true := by
        intro k hk
        have hnk := hmin k (Nat.zero_le k) hk
        simp only [Nat.sub_zero] at hnk
        by_contra hfalse
        refine hnk ⟨lt_trans hk hihit, ?_, ?_⟩
        · cases hcase : pos.scale_levels_hit.getD k false with
          | true => exact absurd hcase hfalse
          | false => rfl
        · refine le_trans ?_ htarget
          have hle := pairwise_snd_getD_le cfg.partial_scale_levels hsorted k i hk hlen
          have : (1 + (cfg.partial_scale_levels.getD k (0, 0)).2 / 100) ≤
              (1 + (cfg.partial_scale_levels.getD i (0, 0)).2 / 100) := by
            linarith
          exact mul_le_mul_of_nonneg_left this (le_of_lt hentry)
      rw [apply_scaling_flags_eq cfg pos entry price i hfi]
      constructor
      · intro a b hab hb
        by_cases hbi : b = i
        · subst hbi
          by_cases hai : a = b
          · subst hai
            exact hb
          · have hab' : a < b := lt_of_le_of_ne hab hai
            rw [getD_set_ne _ _ _ _ (fun hx => hai hx.symm)]
            exact hbelow a hab'
        · rw [getD_set_ne _ _ _ _ (fun hx => hbi hx.symm)] at hb
          by_cases hai : a = i
          · subst hai
            exact getD_set_self _ _ _ hihit
          · rw [getD_set_ne _ _ _ _ (fun hx => hai hx.symm)]
            exact hdc a b hab hb
      · exact count_true_set_le _ _

theorem manage_position_flags (cfg : TradeConfig) (atr : ℚ)
    (bb : Option BollingerBands) (pos : Trade) (price now : ℚ) :
    (manage_position cfg atr bb pos price now).pos.scale_levels_hit =
      pos.scale_levels_hit ∨
    (manage_position cfg atr bb pos price now).pos.scale_levels_hit =
      (apply_scaling cfg
        (stop_evaluation cfg atr bb pos pos.entry_price price now).1
        pos.entry_price price).1.scale_levels_hit := by
  by_cases htime : (cfg.use_time_exit = true ∧
    cfg.max_hold_time_minutes ≤ (now - pos.entry_time) / 60)
  · left
    rw [manage_position_time_exit cfg atr bb pos price now htime]
    simp
  · simp only [manage_position]
    rw [if_neg htime]
    split_ifs <;> first | (left; simp; done) | (right; rfl)

/-- C7: partial scale levels fire in ascending target order with at most
one level transition per price observation: if the configured targets are
ascending, the entry price positive and the hit flags downward closed
(every level below a hit level is hit — true initially, all-false), then
one `manage_position` step keeps the flags downward closed and marks at
most one new level; in particular level 2 can never be hit while level 1
is not. -/
theorem scale_levels_fire_in_order (cfg : TradeConfig) (atr : ℚ)
    (bb : Option BollingerBands) (pos : Trade) (price now : ℚ)
    (hentry : 0 < pos.entry_price)
    (hsorted : cfg.partial_scale_levels.Pairwise (fun a b => a.2 ≤ b.2))
    (hdc : flags_downward_closed pos.scale_levels_hit) :
    flags_downward_closed
      (manage_position cfg atr bb pos price now).pos.scale_levels_hit ∧
    count_hits (manage_position cfg atr bb pos price now).pos.scale_levels_hit ≤
      count_hits pos.scale_levels_hit + 1 ∧
    ((manage_position cfg atr bb pos price now).pos.scale_levels_hit.getD 1 false = true →
      (manage_position cfg atr bb pos price now).pos.scale_levels_hit.getD 0 false = true) := by
  have main : flags_downward_closed
      (manage_position cfg atr bb pos price now).pos.scale_levels_hit ∧
      count_hits (manage_position cfg atr bb pos price now).pos.scale_levels_hit ≤
        count_hits pos.scale_levels_hit + 1 := by
    rcases manage_position_flags cfg atr bb pos price now with h | h
    · rw [h]
      exact ⟨hdc, Nat.le_succ_of_le le_rfl⟩
    · rw [h]
      have hres := apply_scaling_flags_ordered cfg
        (stop_evaluation cfg atr bb pos pos.entry_price price now).1
        pos.entry_price price hentry hsorted
        (by rw [stop_evaluation_scale_levels]; exact hdc)
      rwa [stop_evaluation_scale_levels] at hres
  exact ⟨main.1, main.2, fun h => main.1 0 1 (by omega) h⟩

theorem flags_downward_closed_first_hit :
    flags_downward_closed [true, false, false] := by
  intro i j hij hj
  match j with
  | 0 =>
      have : i = 0 := Nat.le_zero.mp hij
      rw [this]
      exact hj
  | 1 => simp at hj
  | 2 => simp at hj
  | (n + 3) =>
      rw [List.getD_eq_default] at hj
      · exact absurd hj (by simp)
      · simp

/-- Witness for `scale_levels_fire_in_order` on `posAfterFirstScale` (first
level hit, price 101 below the second target). -/
theorem scale_levels_fire_in_order_witness :
    ((0 : ℚ) < posAfterFirstScale.entry_price ∧
      (({} : TradeConfig).partial_scale_levels).Pairwise
        (fun a b => a.2 ≤ b.2) ∧
      flags_downward_closed posAfterFirstScale.scale_levels_hit) ∧
    (flags_downward_closed
        (manage_position {} 0 none posAfterFirstScale 101 60).pos.scale_levels_hit ∧
      count_hits
          (manage_position {} 0 none posAfterFirstScale 101 60).pos.scale_levels_hit ≤
        count_hits posAfterFirstScale.scale_levels_hit + 1 ∧
      ((manage_position {} 0 none posAfterFirstScale 101 60).pos.scale_levels_hit.getD 1 false = true →
        (manage_position {} 0 none posAfterFirstScale 101 60).pos.scale_levels_hit.getD 0 false = true)) :=
  ⟨⟨by norm_num [posAfterFirstScale],
    by norm_num [List.pairwise_cons],
    flags_downward_closed_first_hit⟩,
    scale_levels_fire_in_order {} 0 none posAfterFirstScale 101 60
      (by norm_num [posAfterFirstScale]) (by norm_num [List.pairwise_cons])
      flags_downward_closed_first_hit⟩

theorem py_last_slice_self_length {α : Type} (l : List α) :
    py_last_slice l.length l = l := by
  unfold py_last_slice
  split_ifs with h
  · rfl
  · simp

theorem zip_self_map_sq (m : ℝ) (l : List ℝ) :
    ((l.zip l).map fun p => (p.1 - m) * (p.2 - m)) =
      l.map fun x => (x - m) ^ 2 := by
  induction l with
  | nil => rfl
  | cons a t ih => simp [ih, sq]

theorem list_mean_nonneg (l : List ℝ) (h : ∀ x ∈ l, 0 ≤ x) :
    0 ≤ list_mean l :=
  div_nonneg (List.sum_nonneg h) (Nat.cast_nonneg _)

theorem list_variance_nonneg (l : List ℝ) :
    0 ≤ list_mean (l.map fun x => (x - list_mean l) ^ 2) := by
  refine list_mean_nonneg _ ?_
  intro y hy
  obtain ⟨x, -, rfl⟩ := List.mem_map.mp hy
  exact sq_nonneg _

theorem calculate_correlation_same (t : CorrelationTracker) (s1 s2 : String)
    (hist : List ℝ)
    (h1 : lookup_history t.token_histories s1 = some hist)
    (h2 : lookup_history t.token_histories s2 = some hist)
    (hlen : ¬(py_last_slice t.lookback (get_returns hist)).length < 5)
    (hstd : list_std (py_last_slice t.lookback (get_returns hist)) ≠ 0) :
    calculate_correlation t s1 s2 = 1 := by
  have hr2 : ¬(py_last_slice t.lookback (get_returns hist)).length < 2 := by omega
  simp only [calculate_correlation, h1, h2]
  rw [if_neg (by simpa using hlen), min_self, py_last_slice_self_length,
    if_neg hr2, if_neg (by simpa using hstd), zip_self_map_sq]
  have hvnn : 0 ≤ list_mean ((py_last_slice t.lookback (get_returns hist)).map
      fun x => (x - list_mean (py_last_slice t.lookback (get_returns hist))) ^ 2) :=
    list_variance_nonneg _
  rw [show list_std (py_last_slice t.lookback (get_returns hist)) *
      list_std (py_last_slice t.lookback (get_returns hist)) =
      list_mean ((py_last_slice t.lookback (get_returns hist)).map
        fun x => (x - list_mean (py_last_slice t.lookback (get_returns hist))) ^ 2) from
    Real.mul_self_sqrt hvnn]
  refine div_self fun hv0 => hstd ?_
  rw [list_std, hv0, Real.sqrt_zero]

theorem insert_by_abs_desc_length (x : String × ℝ) (l : List (String × ℝ)) :
    (insert_by_abs_desc x l).length = l.length + 1 := by
  induction l with
  | nil => rfl
  | cons y ys ih =>
      simp only [insert_by_abs_desc]
      split_ifs <;> simp [ih]

theorem sort_by_abs_desc_length (l : List (String × ℝ)) :
    (sort_by_abs_desc l).length = l.length := by
  induction l with
  | nil => rfl
  | cons x xs ih => simp [sort_by_abs_desc, insert_by_abs_desc_length, ih]

theorem get_correlated_tokens_length (t : CorrelationTracker) (symbol : String)
    (active_symbols : List String) :
    (get_correlated_tokens t symbol active_symbols).length =
      active_symbols.countP (fun other => decide (other ≠ symbol ∧
        t.threshold ≤ |calculate_correlation t symbol other|)) := by
  unfold get_correlated_tokens
  rw [sort_by_abs_desc_length]
  induction active_symbols with
  | nil => rfl
  | cons a rest ih =>
      rw [List.countP_cons]
      simp only [List.foldr_cons]
      by_cases ha : a = symbol
      · rw [if_pos ha]
        simp [ha, ih]
      · rw [if_neg ha]
        by_cases hth : t.threshold ≤ |calculate_correlation t symbol a|
        · rw [if_pos hth]
          simp only [List.length_cons, ih]
          have hd : decide (a ≠ symbol ∧
              t.threshold ≤ |calculate_correlation t symbol a|) = true := by
            simp [ha, hth]
          rw [hd]
          simp
        · rw [if_neg hth]
          rw [ih]
          have hd : decide (a ≠ symbol ∧
              t.threshold ≤ |calculate_correlation t symbol a|) = false := by
            simp [hth]
          rw [hd]
          simp

/-- C1 amended: an entry attempt is rejected with a correlation reason iff
the NUMBER of active (open) instruments whose correlation magnitude with
the candidate reaches the threshold is at least `max_correlated_positions`
(default 2) — not whenever ANY single open instrument is correlated. -/
theorem correlation_gate_counts (t : CorrelationTracker) (symbol : String)
    (active_symbols : List String) (max_correlated : ℕ) :
    (check_entry_correlation_gate true max_correlated t symbol
        active_symbols = false ↔
      max_correlated ≤ active_symbols.countP (fun other => decide (other ≠ symbol ∧
        t.threshold ≤ |calculate_correlation t symbol other|))) ∧
    check_entry_correlation_gate true max_correlated t symbol active_symbols =
      (check_correlation_risk t symbol active_symbols max_correlated).1 := by
  constructor
  · rw [show check_entry_correlation_gate true max_correlated t symbol
        active_symbols =
      (check_correlation_risk t symbol active_symbols max_correlated).1 from rfl]
    unfold check_correlation_risk
    rw [← get_correlated_tokens_length]
    by_cases h : max_correlated ≤
        (get_correlated_tokens t symbol active_symbols).length
    · rw [if_pos (by simpa using h)]
      simpa using h
    · rw [if_neg (by simpa using h)]
      simpa using h
  · rfl

/-- C1 counterexample: two instruments with identical histories (Pearson
correlation 1 > threshold 0.85), one of them open; with the default
`max_correlated_positions = 2` the correlation check ALLOWS the entry
(the gate is `true`, the correlated list is just `["A"]`), so the entry is
not rejected despite the correlation exceeding the threshold. -/
theorem one_correlated_open_not_rejected :
    (0.85 : ℝ) < |calculate_correlation corrTrackerW "B" "A"| ∧
    corrTrackerW.threshold = 0.85 ∧
    (check_correlation_risk corrTrackerW "B" ["A"] 2).1 = true ∧
    (check_correlation_risk corrTrackerW "B" ["A"] 2).2 = ["A"] ∧
    check_entry_correlation_gate true 2 corrTrackerW "B" ["A"] = true := by
  have hlookA : lookup_history corrTrackerW.token_histories "A" = some corrPricesW := by
    simp [corrTrackerW, lookup_history]
  have hlookB : lookup_history corrTrackerW.token_histories "B" = some corrPricesW := by
    simp [corrTrackerW, lookup_history]
  have hret : get_returns corrPricesW = [1, -(1/2), 1, -(1/2), 1] := by
    norm_num [get_returns, corrPricesW]
  have hslice : py_last_slice corrTrackerW.lookback (get_returns corrPricesW) =
      [1, -(1/2), 1, -(1/2), 1] := by
    rw [hret]
    norm_num [py_last_slice, corrTrackerW]
  have hmean : list_mean [(1 : ℝ), -(1/2), 1, -(1/2), 1] = 2/5 := by
    norm_num [list_mean]
  have hvar : list_mean (([(1 : ℝ), -(1/2), 1, -(1/2), 1]).map
      fun x => (x - list_mean [(1 : ℝ), -(1/2), 1, -(1/2), 1]) ^ 2) = 27/50 := by
    rw [hmean]
    norm_num [list_mean]
  have hstd : list_std (py_last_slice corrTrackerW.lookback
      (get_returns corrPricesW)) ≠ 0 := by
    rw [hslice, list_std, hvar]
    positivity
  have hcorr : calculate_correlation corrTrackerW "B" "A" = 1 :=
    calculate_correlation_same corrTrackerW "B" "A" corrPricesW hlookB hlookA
      (by rw [hslice]; norm_num) hstd
  have habs : (0.85 : ℝ) < |calculate_correlation corrTrackerW "B" "A"| := by
    rw [hcorr]
    norm_num
  have hgct : get_correlated_tokens corrTrackerW "B" ["A"] = [("A", 1)] := by
    unfold get_correlated_tokens
    simp only [List.foldr_cons, List.foldr_nil]
    rw [if_neg (by decide), if_pos (by rw [hcorr]; norm_num [corrTrackerW])]
    simp [sort_by_abs_desc, insert_by_abs_desc, hcorr]
  refine ⟨habs, by norm_num [corrTrackerW], ?_, ?_, ?_⟩ <;>
    simp [check_entry_correlation_gate, check_correlation_risk, hgct]
